import Mathlib

/-!
MultiDimensionalVector: `Vector.h`.

A shallow embedding of `src/Vector.h` (the class template `Vector<Dimension>` and its
subclasses `Vector2`, `Vector3`), followed by theorems about it.

Conventions of the embedding.

* The component type `float` is a type parameter `F`, and the arithmetic the source applies to
  it (`+`, `-`, `*`, `/`, `sqrt`, `==`, the literals `0` and `1`) is a record `FloatOps F`
  that every operation receives.  Nothing is assumed of these operations in the definitions; a
  theorem that holds for every `FloatOps` holds for rounded arithmetic as well.
* Exact arithmetic is the record `exactOps sqrt` over a field, with `sqrt` still a parameter;
  `ExactSqrt sqrt` says that `sqrt` is the exact non-negative square root.
* The arithmetic of `float` itself is the record `binary32` over the type `Binary32`, the
  IEEE-754 binary32 format with rounding to nearest.
* `std::array<float, Dimension>` is a function `Fin Dimension → F`.
* A loop `for (int i = 0; i < Dimension; i++)` is a left fold over the indices
  `0, 1, ..., Dimension - 1` in this order, the loop-carried variables being the fold state.
  The guard `i < Dimension` is carried by the index type `Fin Dimension`.  The counter is an
  `int` compared with the `unsigned int` template parameter; it stays below `2^31` for every
  `Dimension` below `2^31`, and the embedding counts in `Nat`.
* `const` member functions are functions of the receiver `self` and the arguments; they return
  the result and cannot change their inputs.
* The reference members of `Vector2` and `Vector3` need object identity: for them the objects
  live in a `Memory`, and constructors, reads and writes pass the memory along.
-/

namespace MultiDimensionalVector

/-! ## Scalars -/

/-- The operations on `float` that `Vector.h` uses: the literals `0` and `1`,
`std::plus`, `std::minus`, `std::multiplies`, `std::divides` (also the built-in
`+`, `-`, `*`, `/`), `sqrt`, and the comparison `==`. -/
structure FloatOps (F : Type) where
  zero : F
  one : F
  plus : F → F → F
  minus : F → F → F
  multiplies : F → F → F
  divides : F → F → F
  sqrt : F → F
  eq : F → F → Bool

/-- Exact arithmetic over a field `F`; the square root stays a parameter. -/
def exactOps {F : Type} [Field F] [DecidableEq F] (sqrt : F → F) : FloatOps F where
  zero := 0
  one := 1
  plus := fun x y => x + y
  minus := fun x y => x - y
  multiplies := fun x y => x * y
  divides := fun x y => x / y
  sqrt := sqrt
  eq := fun x y => decide (x = y)

/-- The record `ops` with its division replaced by `divides`. -/
def FloatOps.withDivides {F : Type} (ops : FloatOps F) (divides : F → F → F) : FloatOps F where
  zero := ops.zero
  one := ops.one
  plus := ops.plus
  minus := ops.minus
  multiplies := ops.multiplies
  divides := divides
  sqrt := ops.sqrt
  eq := ops.eq

/-- The function `sqrt` is the exact square root on the non-negative elements: its value is
non-negative and squares to the argument. -/
def ExactSqrt {F : Type} [LinearOrderedField F] (sqrt : F → F) : Prop :=
  ∀ x : F, 0 ≤ x → 0 ≤ sqrt x ∧ sqrt x * sqrt x = x

/-! ## The type `float`

`Vector.h` computes in the built-in type `float`, which the specification calls "32-bit
floating-point" with IEEE-754 semantics.  `Binary32` is that format, bit for bit, and
`binary32` is its arithmetic: every operation computes the exact result and rounds it to the
nearest representable value, ties to the even fraction.  Each expression of the source is of type
`float` and is rounded on its own (no fused multiply-add, no wider intermediate format).
IEEE-754 leaves open which NaN an invalid operation returns; the operations here return the one
value `nan`, and the theorems speak of a result being a NaN, not of its bits. -/

/-- Modelled from the spec: the built-in type `float`, an IEEE-754 binary32 value with its sign
bit, its 8-bit biased exponent and its 23-bit fraction.  Exponent `255` is an infinity (fraction
`0`) or a NaN; exponent `0` is a zero or a subnormal number. -/
structure Binary32 where
  sign : Bool
  exponent : Fin 256
  fraction : Fin 8388608
  deriving DecidableEq, Repr

namespace Binary32

/-- Modelled from the spec: the `float` with the 32-bit pattern `n` (sign in bit 31, exponent in
bits 30 to 23, fraction in bits 22 to 0). -/
def ofBits (n : Nat) : Binary32 :=
  ⟨decide (n / 2147483648 % 2 = 1), ⟨n / 8388608 % 256, Nat.mod_lt _ (by decide)⟩,
    ⟨n % 8388608, Nat.mod_lt _ (by decide)⟩⟩

/-- Modelled from the spec: the 32-bit pattern of a `float`. -/
def toBits (x : Binary32) : Nat :=
  (if x.sign then 2147483648 else 0) + x.exponent.val * 8388608 + x.fraction.val

/-- Modelled from the spec: the `float` is a NaN. -/
def isNaN (x : Binary32) : Bool :=
  x.exponent.val == 255 && x.fraction.val != 0

/-- Modelled from the spec: the `float` is plus or minus infinity. -/
def isInfinite (x : Binary32) : Bool :=
  x.exponent.val == 255 && x.fraction.val == 0

/-- Modelled from the spec: the `float` is finite: neither an infinity nor a NaN. -/
def isFinite (x : Binary32) : Bool :=
  x.exponent.val != 255

/-- Modelled from the spec: the `float` is plus or minus zero. -/
def isZero (x : Binary32) : Bool :=
  x.exponent.val == 0 && x.fraction.val == 0

/-- Modelled from the spec: the integer significand of a finite `float`, whose magnitude is
`mantissa * 2 ^ exp2`. -/
def mantissa (x : Binary32) : Nat :=
  if x.exponent.val = 0 then x.fraction.val else 8388608 + x.fraction.val

/-- Modelled from the spec: the exponent of the last place of a finite `float`. -/
def exp2 (x : Binary32) : Int :=
  if x.exponent.val = 0 then -149 else (x.exponent.val : Int) - 150

/-- Modelled from the spec: the NaN that an invalid `float` operation returns. -/
def nan : Binary32 :=
  ⟨false, 255, ⟨4194304, by decide⟩⟩

/-- Modelled from the spec: the `float` infinity of the given sign. -/
def infinity (negative : Bool) : Binary32 :=
  ⟨negative, 255, 0⟩

/-- Modelled from the spec: the `float` zero of the given sign. -/
def signedZero (negative : Bool) : Binary32 :=
  ⟨negative, 0, 0⟩

/-- Modelled from the spec: the negation of a `float`, which flips the sign bit. -/
def neg (x : Binary32) : Binary32 :=
  ⟨!x.sign, x.exponent, x.fraction⟩

/-- Modelled from the spec: the floor of the binary logarithm of a positive number, for the
rounding of `float` results (`fuel` bounds the number of halvings). -/
def log2Loop : Nat → Nat → Nat
  | 0, _ => 0
  | fuel + 1, n => if n < 2 then 0 else log2Loop fuel (n / 2) + 1

/-- Modelled from the spec: the floor of the binary logarithm of a positive number. -/
def log2 (n : Nat) : Nat :=
  log2Loop n n

/-- Modelled from the spec: the `float` of magnitude `m * 2 ^ q`, for `m ≤ 2 ^ 24` and
`-149 ≤ q`, where `m < 2 ^ 23` only if `q = -149`; a magnitude of `2 ^ 128` or more is an
infinity. -/
def pack (negative : Bool) (m : Nat) (q : Int) : Binary32 :=
  let m1 := if m = 16777216 then 8388608 else m
  let q1 := if m = 16777216 then q + 1 else q
  if 104 < q1 then infinity negative
  else if m1 < 8388608 then ⟨negative, 0, ⟨m1 % 8388608, Nat.mod_lt _ (by decide)⟩⟩
  else ⟨negative, ⟨(q1 + 150).toNat % 256, Nat.mod_lt _ (by decide)⟩,
    ⟨(m1 - 8388608) % 8388608, Nat.mod_lt _ (by decide)⟩⟩

/-- Modelled from the spec: the rounding of `float` arithmetic.  The exact magnitude
`M * 2 ^ E` is rounded to the nearest `float`, ties to the even significand; `q` is the exponent
of the last place of the result. -/
def round (negative : Bool) (M : Nat) (E : Int) : Binary32 :=
  if M = 0 then signedZero negative
  else
    let q : Int := max ((log2 M : Int) + E - 23) (-149)
    if q ≤ E then pack negative (M * 2 ^ (E - q).toNat) q
    else
      let s := (q - E).toNat
      let m0 := M / 2 ^ s
      let r := M % 2 ^ s
      let half := 2 ^ (s - 1)
      if half < r ∨ (r = half ∧ m0 % 2 = 1) then pack negative (m0 + 1) q
      else pack negative m0 q

/-- Modelled from the spec: the value of a finite `float` as a signed multiple of `2 ^ e`, for
`e ≤ exp2`. -/
def signedMantissa (x : Binary32) (e : Int) : Int :=
  let v : Int := (x.mantissa * 2 ^ (x.exp2 - e).toNat : Nat)
  if x.sign then -v else v

/-- Modelled from the spec: `float` addition (`+`, `+=`, `std::plus<float>`). -/
def add (x y : Binary32) : Binary32 :=
  if x.isNaN || y.isNaN then nan
  else if x.isInfinite then
    if y.isInfinite && (x.sign != y.sign) then nan else x
  else if y.isInfinite then y
  else
    let e := min x.exp2 y.exp2
    let z := x.signedMantissa e + y.signedMantissa e
    if z = 0 then signedZero (x.sign && y.sign)
    else round (decide (z < 0)) z.natAbs e

/-- Modelled from the spec: `float` subtraction (`-`, `std::minus<float>`). -/
def sub (x y : Binary32) : Binary32 :=
  add x (neg y)

/-- Modelled from the spec: `float` multiplication (`*`, `std::multiplies<float>`). -/
def mul (x y : Binary32) : Binary32 :=
  let s := x.sign != y.sign
  if x.isNaN || y.isNaN then nan
  else if x.isInfinite then (if y.isZero then nan else infinity s)
  else if y.isInfinite then (if x.isZero then nan else infinity s)
  else round s (x.mantissa * y.mantissa) (x.exp2 + y.exp2)

/-- Modelled from the spec: `float` division (`/`, `std::divides<float>`).  The quotient of the
significands is taken to 27 bits or more, with one more bit that records a remainder. -/
def div (x y : Binary32) : Binary32 :=
  let s := x.sign != y.sign
  if x.isNaN || y.isNaN then nan
  else if x.isInfinite then (if y.isInfinite then nan else infinity s)
  else if y.isInfinite then signedZero s
  else if y.isZero then (if x.isZero then nan else infinity s)
  else
    let k := log2 y.mantissa + 27
    let n := x.mantissa * 2 ^ k
    let Q := n / y.mantissa
    let sticky := if n % y.mantissa = 0 then 0 else 1
    round s (2 * Q + sticky) (x.exp2 - y.exp2 - (k : Int) - 1)

/-- Modelled from the spec: the integer square root by binary digits, from bit `k - 1` down. -/
def isqrtLoop (n : Nat) : Nat → Nat → Nat
  | 0, r => r
  | k + 1, r =>
    if (r + 2 ^ k) * (r + 2 ^ k) ≤ n then isqrtLoop n k (r + 2 ^ k) else isqrtLoop n k r

/-- Modelled from the spec: the floor of the square root of a natural number. -/
def isqrt (n : Nat) : Nat :=
  isqrtLoop n (log2 n / 2 + 1) 0

/-- Modelled from the spec: the `float` square root `sqrt`.  The root of the significand is
taken to 26 bits or more, with one more bit that records a remainder. -/
def sqrt (x : Binary32) : Binary32 :=
  if x.isNaN then nan
  else if x.isZero then x
  else if x.sign then nan
  else if x.isInfinite then x
  else
    let j : Nat := if (x.exp2 - 52) % 2 = 0 then 52 else 53
    let n := x.mantissa * 2 ^ j
    let R := isqrt n
    let sticky := if R * R = n then 0 else 1
    round false (2 * R + sticky) ((x.exp2 - (j : Int)) / 2 - 1)

/-- Modelled from the spec: the `float` comparison `==`: a NaN equals nothing, the two zeros
are equal, all else is compared bit by bit. -/
def eq (x y : Binary32) : Bool :=
  if x.isNaN || y.isNaN then false
  else if x.isZero && y.isZero then true
  else decide (x = y)

end Binary32

/-- Modelled from the spec: the arithmetic of the built-in type `float`, IEEE-754 binary32
with rounding to nearest, ties to even; the literals `0` and `1` are `+0.0f` and `1.0f`. -/
def binary32 : FloatOps Binary32 where
  zero := Binary32.signedZero false
  one := Binary32.ofBits 0x3F800000
  plus := Binary32.add
  minus := Binary32.sub
  multiplies := Binary32.mul
  divides := Binary32.div
  sqrt := Binary32.sqrt
  eq := Binary32.eq

/-! ## Loops -/

/-- The loop `for (int i = 0; i < n; i++) { body }` over a state `σ`: the body runs for
`i = 0, 1, ..., n - 1`, in this order. -/
def forLoop {σ : Type} (n : Nat) (body : Fin n → σ → σ) (init : σ) : σ :=
  (List.finRange n).foldl (fun s i => body i s) init

/-! ## `Vector<Dimension>` -/

/-- The class `Vector<Dimension>`: its one data member `parameters`. -/
structure Vector (F : Type) (Dimension : Nat) where
  parameters : Fin Dimension → F

/-- The failure of `std::array::at`. -/
inductive Error where
  | out_of_range
  deriving DecidableEq, Repr

namespace Vector

variable {F : Type} {Dimension : Nat}

/-- The protected constructor `Vector() : parameters{ 0 }`: every slot is `0`. -/
def new (ops : FloatOps F) : Vector F Dimension :=
  ⟨fun _ => ops.zero⟩

/-- The static function `Zero()`, which returns `Vector<Dimension>()`. -/
def Zero (ops : FloatOps F) : Vector F Dimension :=
  new ops

/-- Reading `operator[](unsigned int i) const`, which is `parameters.at(i)`. -/
def operatorIndex (self : Vector F Dimension) (i : Nat) : Except Error F :=
  if h : i < Dimension then .ok (self.parameters ⟨i, h⟩) else .error .out_of_range

/-- The assignment `v[i] = x` through `float& operator[](unsigned int i)`, which is
`parameters.at(i)`. -/
def assignIndex (self : Vector F Dimension) (i : Nat) (x : F) :
    Except Error (Vector F Dimension) :=
  if h : i < Dimension then .ok ⟨Function.update self.parameters ⟨i, h⟩ x⟩
  else .error .out_of_range

/-- The assignment `result[i] = x` inside a loop guarded by `i < Dimension`, where the
check of `at` succeeds. -/
def set (self : Vector F Dimension) (i : Fin Dimension) (x : F) : Vector F Dimension :=
  ⟨Function.update self.parameters i x⟩

/-- The private `Operate(other, operation)`. -/
def Operate (ops : FloatOps F) (self other : Vector F Dimension) (operation : F → F → F) :
    Vector F Dimension :=
  forLoop Dimension
    (fun i result => result.set i (operation (self.parameters i) (other.parameters i)))
    (new ops)

/-- The private `OperateScalar(scalar, operation)`. -/
def OperateScalar (ops : FloatOps F) (self : Vector F Dimension) (scalar : F)
    (operation : F → F → F) : Vector F Dimension :=
  forLoop Dimension
    (fun i result => result.set i (operation (self.parameters i) scalar))
    (new ops)

/-- The operator `operator+(other)`. -/
def operatorPlus (ops : FloatOps F) (self other : Vector F Dimension) : Vector F Dimension :=
  Operate ops self other ops.plus

/-- The operator `operator-(other)`. -/
def operatorMinus (ops : FloatOps F) (self other : Vector F Dimension) : Vector F Dimension :=
  Operate ops self other ops.minus

/-- The operator `operator/(scalar)`. -/
def operatorDiv (ops : FloatOps F) (self : Vector F Dimension) (scalar : F) :
    Vector F Dimension :=
  OperateScalar ops self scalar ops.divides

/-- The operator `operator*(scalar)`. -/
def operatorMul (ops : FloatOps F) (self : Vector F Dimension) (scalar : F) :
    Vector F Dimension :=
  OperateScalar ops self scalar ops.multiplies

/-- The function `SqrMagnitude()`. -/
def SqrMagnitude (ops : FloatOps F) (self : Vector F Dimension) : F :=
  forLoop Dimension
    (fun i mag => ops.plus mag (ops.multiplies (self.parameters i) (self.parameters i)))
    ops.zero

/-- The function `Magnitude()`. -/
def Magnitude (ops : FloatOps F) (self : Vector F Dimension) : F :=
  ops.sqrt (SqrMagnitude ops self)

/-- The function `Normalized()`. -/
def Normalized (ops : FloatOps F) (self : Vector F Dimension) : Vector F Dimension :=
  let magnitude := Magnitude ops self
  if ops.eq magnitude ops.zero then
    Zero ops
  else
    let inverse := ops.divides ops.one magnitude
    operatorMul ops self inverse

/-- The function `Dot(other)`. -/
def Dot (ops : FloatOps F) (self other : Vector F Dimension) : F :=
  forLoop Dimension
    (fun i product => ops.plus product (ops.multiplies (self.parameters i) (other.parameters i)))
    ops.zero

/-- The function `UnNormalDot(other)`. -/
def UnNormalDot (ops : FloatOps F) (self other : Vector F Dimension) : F :=
  ops.divides (Dot ops self other)
    (ops.sqrt (ops.multiplies (SqrMagnitude ops self) (SqrMagnitude ops other)))

/-- The function `SqrDistance(other)`. -/
def SqrDistance (ops : FloatOps F) (self other : Vector F Dimension) : F :=
  SqrMagnitude ops (operatorMinus ops self other)

/-- The function `Distance(other)`. -/
def Distance (ops : FloatOps F) (self other : Vector F Dimension) : F :=
  Magnitude ops (operatorMinus ops self other)

end Vector

/-! ## `Vector2` and `Vector3` -/

/-- The class `Vector2 : public Vector<2>`; the reference members `X`, `Y` are bound to
`parameters[0]`, `parameters[1]` and hold no data of their own. -/
structure Vector2 (F : Type) extends Vector F 2

/-- The class `Vector3 : public Vector<3>`; the reference members `X`, `Y`, `Z` are bound to
`parameters[0]`, `parameters[1]`, `parameters[2]` and hold no data of their own. -/
structure Vector3 (F : Type) extends Vector F 3

namespace Vector2

variable {F : Type}

/-- The constructor `Vector2(float x, float y)`. -/
def ofFloats (x y : F) : Vector2 F :=
  ⟨⟨![x, y]⟩⟩

end Vector2

namespace Vector3

variable {F : Type}

/-- The constructor `Vector3(float x, float y, float z)`. -/
def ofFloats (x y z : F) : Vector3 F :=
  ⟨⟨![x, y, z]⟩⟩

/-- The protected constructor `Vector3() : Vector<3>()`. -/
def new (ops : FloatOps F) : Vector3 F :=
  ⟨Vector.new ops⟩

/-- The index expression `(i + k) % 3` of `Cross`. -/
def rot (i : Fin 3) (k : Nat) : Fin 3 :=
  ⟨(i.val + k) % 3, Nat.mod_lt _ (by decide)⟩

/-- The function `Vector3::Cross(other)`. -/
def Cross (ops : FloatOps F) (self other : Vector3 F) : Vector3 F :=
  forLoop 3
    (fun i result =>
      ⟨result.toVector.set i
        (ops.minus
          (ops.multiplies (self.parameters (rot i 1)) (other.parameters (rot i 2)))
          (ops.multiplies (self.parameters (rot i 2)) (other.parameters (rot i 1))))⟩)
    (new ops)

end Vector3

/-! ## `Vector2` and `Vector3` objects in memory

The members `float& X = parameters[0];` and so on are references.  To say which float a reference
member reads and writes, the objects of one class are placed in a memory, by address, and a
reference is the address of an object together with the index of one of its slots. -/

/-- A `float&` bound to `parameters[slot]` of the object at address `object`. -/
structure SlotRef where
  object : Nat
  slot : Nat
  deriving DecidableEq, Repr

/-- A `Vector2` (`n = 2`) or `Vector3` (`n = 3`) object: the inherited `parameters`, and the
reference members in their order of declaration (`X`, `Y`, and for `Vector3` also `Z`). -/
structure NamedObject (F : Type) (n : Nat) where
  parameters : Fin n → F
  fields : Fin n → SlotRef

/-- The live objects of one class, by address. -/
abbrev Memory (F : Type) (n : Nat) : Type :=
  Nat → Option (NamedObject F n)

namespace Memory

variable {F : Type} {n : Nat}

/-- No object is alive. -/
def empty : Memory F n :=
  fun _ => none

/-- The constructors `Vector2(float x, float y)` and `Vector3(float x, float y, float z)` run at
address `p`: the base is built from the values, and each default member initializer
`float& X = parameters[0];` binds the reference member to the slot of this very object. -/
def construct (mem : Memory F n) (p : Nat) (values : Fin n → F) : Memory F n :=
  Function.update mem p (some ⟨values, fun k => ⟨p, k.val⟩⟩)

/-- The constructors `Vector2(Vector<2>&& base)` and `Vector3(Vector<3>&& base)` run at address
`p`: the base is moved in and the default member initializers run as in `construct`. -/
def adopt (mem : Memory F n) (p : Nat) (base : Vector F n) : Memory F n :=
  construct mem p base.parameters

/-- The implicit copy constructor `Vector2(const Vector2&)` (the class declares none; the
implicit move constructor does the same) run at address `p` on the object at address `q`: the
base is copied, and every reference member is initialized from the corresponding member of the
source, so it is bound to the float the source member is bound to.  The default member
initializers do not run. -/
def copyConstruct (mem : Memory F n) (p q : Nat) : Option (Memory F n) :=
  match mem q with
  | none => none
  | some source => some (Function.update mem p (some ⟨source.parameters, source.fields⟩))

/-- The read `w[i]` of the object at address `p` (`parameters.at(i)`); `none` where no object
lives at `p` or `at` throws. -/
def readIndex (mem : Memory F n) (p i : Nat) : Option F :=
  match mem p with
  | none => none
  | some o => if h : i < n then some (o.parameters ⟨i, h⟩) else none

/-- The write `w[i] = x` to the object at address `p`; `none` where no object lives at `p` or
`at` throws. -/
def writeIndex (mem : Memory F n) (p i : Nat) (x : F) : Option (Memory F n) :=
  match mem p with
  | none => none
  | some o =>
    if h : i < n then
      some (Function.update mem p (some ⟨Function.update o.parameters ⟨i, h⟩ x, o.fields⟩))
    else none

/-- The read of the `k`-th reference member of the object at address `p`: the float that the
reference is bound to. -/
def readField (mem : Memory F n) (p : Nat) (k : Fin n) : Option F :=
  match mem p with
  | none => none
  | some o => readIndex mem (o.fields k).object (o.fields k).slot

/-- The write of `x` through the `k`-th reference member of the object at address `p`. -/
def writeField (mem : Memory F n) (p : Nat) (k : Fin n) (x : F) : Option (Memory F n) :=
  match mem p with
  | none => none
  | some o => writeIndex mem (o.fields k).object (o.fields k).slot x

end Memory

namespace Vector2

variable {F : Type}

/-- The read `w.X` of the `Vector2` at address `p`. -/
def readX (mem : Memory F 2) (p : Nat) : Option F :=
  mem.readField p 0

/-- The read `w.Y` of the `Vector2` at address `p`. -/
def readY (mem : Memory F 2) (p : Nat) : Option F :=
  mem.readField p 1

/-- The write `w.X = x` to the `Vector2` at address `p`. -/
def writeX (mem : Memory F 2) (p : Nat) (x : F) : Option (Memory F 2) :=
  mem.writeField p 0 x

/-- The write `w.Y = x` to the `Vector2` at address `p`. -/
def writeY (mem : Memory F 2) (p : Nat) (x : F) : Option (Memory F 2) :=
  mem.writeField p 1 x

end Vector2

namespace Vector3

variable {F : Type}

/-- The read `w.X` of the `Vector3` at address `p`. -/
def readX (mem : Memory F 3) (p : Nat) : Option F :=
  mem.readField p 0

/-- The read `w.Y` of the `Vector3` at address `p`. -/
def readY (mem : Memory F 3) (p : Nat) : Option F :=
  mem.readField p 1

/-- The read `w.Z` of the `Vector3` at address `p`. -/
def readZ (mem : Memory F 3) (p : Nat) : Option F :=
  mem.readField p 2

/-- The write `w.X = x` to the `Vector3` at address `p`. -/
def writeX (mem : Memory F 3) (p : Nat) (x : F) : Option (Memory F 3) :=
  mem.writeField p 0 x

/-- The write `w.Y = x` to the `Vector3` at address `p`. -/
def writeY (mem : Memory F 3) (p : Nat) (x : F) : Option (Memory F 3) :=
  mem.writeField p 1 x

/-- The write `w.Z = x` to the `Vector3` at address `p`. -/
def writeZ (mem : Memory F 3) (p : Nat) (x : F) : Option (Memory F 3) :=
  mem.writeField p 2 x

end Vector3

/-! ## Accumulation in index order, as the specification words it -/

/-- The specification's accumulation for `Dot(v, v)` and `SqrMagnitude(v)`: starting from `0`,
the products `v[i] * v[i]` are added for the indices `i = 0, ..., k - 1` in increasing order;
`squaresUpTo ops v k _` is the value after `k` products. -/
def squaresUpTo {F : Type} {Dimension : Nat} (ops : FloatOps F) (v : Vector F Dimension) :
    (k : Nat) → k ≤ Dimension → F
  | 0, _ => ops.zero
  | k + 1, h =>
    ops.plus (squaresUpTo ops v k (Nat.le_of_succ_le h))
      (ops.multiplies (v.parameters ⟨k, h⟩) (v.parameters ⟨k, h⟩))

/-! ## The loops in closed form -/

section Loops

variable {F : Type} {Dimension : Nat}

/-- Under the loop guard `i < Dimension` the checked assignment `result[i] = x` succeeds and
is `Vector.set`. -/
theorem assignIndex_eq_set (v : Vector F Dimension) (i : Fin Dimension) (x : F) :
    v.assignIndex i.val x = .ok (v.set i x) := by
  simp [Vector.assignIndex, Vector.set]

theorem foldl_set_parameters (g : Fin Dimension → F) (l : List (Fin Dimension))
    (r : Vector F Dimension) (j : Fin Dimension) :
    (l.foldl (fun result i => result.set i (g i)) r).parameters j =
      if j ∈ l then g j else r.parameters j := by
  induction l generalizing r with
  | nil => simp
  | cons a l ih =>
    rw [List.foldl_cons, ih]
    by_cases hj : j ∈ l
    · simp [hj]
    · by_cases hja : j = a
      · subst hja
        simp [hj, Vector.set]
      · simp [hj, hja, Vector.set, Function.update_noteq hja]

/-- Slot `j` of `Operate(other, operation)` is `operation(parameters[j], other.parameters[j])`. -/
theorem Operate_parameters (ops : FloatOps F) (a b : Vector F Dimension)
    (operation : F → F → F) (j : Fin Dimension) :
    (Vector.Operate ops a b operation).parameters j =
      operation (a.parameters j) (b.parameters j) := by
  unfold Vector.Operate forLoop
  rw [foldl_set_parameters (fun i => operation (a.parameters i) (b.parameters i))]
  simp [List.mem_finRange]

/-- Slot `j` of `OperateScalar(scalar, operation)` is `operation(parameters[j], scalar)`. -/
theorem OperateScalar_parameters (ops : FloatOps F) (a : Vector F Dimension) (scalar : F)
    (operation : F → F → F) (j : Fin Dimension) :
    (Vector.OperateScalar ops a scalar operation).parameters j =
      operation (a.parameters j) scalar := by
  unfold Vector.OperateScalar forLoop
  rw [foldl_set_parameters (fun i => operation (a.parameters i) scalar)]
  simp [List.mem_finRange]

theorem foldl_add_eq_sum [Field F] (f : Fin Dimension → F) (l : List (Fin Dimension)) (x : F) :
    l.foldl (fun s i => s + f i) x = x + (l.map f).sum := by
  induction l generalizing x with
  | nil => simp
  | cons a l ih => rw [List.foldl_cons, ih, List.map_cons, List.sum_cons, add_assoc]

/-- With exact arithmetic, `Dot` is the sum of the products of the components. -/
theorem Dot_exact [Field F] [DecidableEq F] (sqrt : F → F) (a b : Vector F Dimension) :
    Vector.Dot (exactOps sqrt) a b = ∑ i, a.parameters i * b.parameters i := by
  unfold Vector.Dot forLoop
  simp only [exactOps]
  rw [foldl_add_eq_sum (fun i => a.parameters i * b.parameters i), zero_add,
    ← List.ofFn_eq_map, List.sum_ofFn]

/-- With exact arithmetic, `SqrMagnitude` is the sum of the squares of the components. -/
theorem SqrMagnitude_exact [Field F] [DecidableEq F] (sqrt : F → F) (a : Vector F Dimension) :
    Vector.SqrMagnitude (exactOps sqrt) a = ∑ i, a.parameters i * a.parameters i := by
  unfold Vector.SqrMagnitude forLoop
  simp only [exactOps]
  rw [foldl_add_eq_sum (fun i => a.parameters i * a.parameters i), zero_add,
    ← List.ofFn_eq_map, List.sum_ofFn]

/-- Slot `j` of `v * s` and of `v / s`, with exact arithmetic. -/
theorem operatorMul_exact [Field F] [DecidableEq F] (sqrt : F → F) (v : Vector F Dimension)
    (s : F) (j : Fin Dimension) :
    (Vector.operatorMul (exactOps sqrt) v s).parameters j = v.parameters j * s := by
  simp [Vector.operatorMul, OperateScalar_parameters, exactOps]

theorem operatorDiv_exact [Field F] [DecidableEq F] (sqrt : F → F) (v : Vector F Dimension)
    (s : F) (j : Fin Dimension) :
    (Vector.operatorDiv (exactOps sqrt) v s).parameters j = v.parameters j / s := by
  simp [Vector.operatorDiv, OperateScalar_parameters, exactOps]

/-- With exact arithmetic, `SqrMagnitude` is not negative. -/
theorem SqrMagnitude_nonneg [LinearOrderedField F] (sqrt : F → F) (a : Vector F Dimension) :
    0 ≤ Vector.SqrMagnitude (exactOps sqrt) a := by
  rw [SqrMagnitude_exact]
  exact Finset.sum_nonneg (fun i _ => mul_self_nonneg _)

/-- With exact arithmetic, scaling by `s` multiplies `SqrMagnitude` by `s * s`. -/
theorem SqrMagnitude_operatorMul [Field F] [DecidableEq F] (sqrt : F → F)
    (v : Vector F Dimension) (s : F) :
    Vector.SqrMagnitude (exactOps sqrt) (Vector.operatorMul (exactOps sqrt) v s) =
      s * s * Vector.SqrMagnitude (exactOps sqrt) v := by
  rw [SqrMagnitude_exact, SqrMagnitude_exact, Finset.mul_sum]
  refine Finset.sum_congr rfl (fun i _ => ?_)
  rw [operatorMul_exact]
  ring

/-- An exact square root is determined by its square. -/
theorem ExactSqrt.eq_of_mul_self [LinearOrderedField F] {sqrt : F → F} (hs : ExactSqrt sqrt)
    {x y : F} (hy : 0 ≤ y) (hxy : y * y = x) : sqrt x = y := by
  have hx : 0 ≤ x := hxy ▸ mul_self_nonneg y
  obtain ⟨h0, h1⟩ := hs x hx
  exact (mul_self_inj h0 hy).1 (h1.trans hxy.symm)

/-- The real square root is exact. -/
theorem exactSqrt_real : ExactSqrt Real.sqrt :=
  fun x hx => ⟨Real.sqrt_nonneg x, Real.mul_self_sqrt hx⟩

theorem foldl_zero_squares (ops : FloatOps F) (hmul : ops.multiplies ops.zero ops.zero = ops.zero)
    (hadd : ops.plus ops.zero ops.zero = ops.zero) (l : List (Fin Dimension)) :
    l.foldl
      (fun mag i => ops.plus mag (ops.multiplies ((Vector.Zero ops : Vector F Dimension).parameters i)
        ((Vector.Zero ops : Vector F Dimension).parameters i))) ops.zero = ops.zero := by
  induction l with
  | nil => rfl
  | cons a l ih =>
    rw [List.foldl_cons]
    simpa [Vector.Zero, Vector.new, hmul, hadd] using ih

/-- Slot `i` of `Cross(other)`, for any scalar arithmetic. -/
theorem Cross_parameters (ops : FloatOps F) (a b : Vector3 F) (i : Fin 3) :
    (Vector3.Cross ops a b).parameters i =
      ops.minus
        (ops.multiplies (a.parameters (Vector3.rot i 1)) (b.parameters (Vector3.rot i 2)))
        (ops.multiplies (a.parameters (Vector3.rot i 2)) (b.parameters (Vector3.rot i 1))) := by
  have h3 : List.finRange 3 = [0, 1, 2] := rfl
  unfold Vector3.Cross forLoop
  rw [h3]
  fin_cases i <;> simp [Vector.set, Vector3.rot, Function.update]

/-- With exact arithmetic, `Normalized` of a vector of non-zero magnitude is the vector times
`1 / Magnitude()`. -/
theorem Normalized_exact [Field F] [DecidableEq F] (sqrt : F → F) (v : Vector F Dimension)
    (hm : Vector.Magnitude (exactOps sqrt) v ≠ 0) :
    Vector.Normalized (exactOps sqrt) v =
      Vector.operatorMul (exactOps sqrt) v (1 / Vector.Magnitude (exactOps sqrt) v) := by
  have hne : (exactOps sqrt).eq (Vector.Magnitude (exactOps sqrt) v) (exactOps sqrt).zero
      = false := by
    simpa [exactOps] using hm
  simp only [Vector.Normalized, hne]
  rfl

/-- With exact arithmetic, `Dot` is bilinear in the scale factors. -/
theorem Dot_operatorMul [Field F] [DecidableEq F] (sqrt : F → F) (a b : Vector F Dimension)
    (s t : F) :
    Vector.Dot (exactOps sqrt) (Vector.operatorMul (exactOps sqrt) a s)
        (Vector.operatorMul (exactOps sqrt) b t) = s * t * Vector.Dot (exactOps sqrt) a b := by
  rw [Dot_exact, Dot_exact, Finset.mul_sum]
  refine Finset.sum_congr rfl (fun i _ => ?_)
  rw [operatorMul_exact, operatorMul_exact]
  ring

/-- With an exact square root, a vector whose `SqrMagnitude` is not zero has a non-zero
`Magnitude`. -/
theorem Magnitude_ne_zero [LinearOrderedField F] {sqrt : F → F} (hs : ExactSqrt sqrt)
    (v : Vector F Dimension) (h : Vector.SqrMagnitude (exactOps sqrt) v ≠ 0) :
    Vector.Magnitude (exactOps sqrt) v ≠ 0 := by
  intro h0
  have h1 := (hs _ (SqrMagnitude_nonneg sqrt v)).2
  have h0' : sqrt (Vector.SqrMagnitude (exactOps sqrt) v) = 0 := h0
  rw [h0', mul_zero] at h1
  exact h h1.symm

/-- Slot `j` of `a + b` and of `a - b`, with exact arithmetic. -/
theorem operatorPlus_exact [Field F] [DecidableEq F] (sqrt : F → F) (a b : Vector F Dimension)
    (j : Fin Dimension) :
    (Vector.operatorPlus (exactOps sqrt) a b).parameters j = a.parameters j + b.parameters j := by
  simp [Vector.operatorPlus, Operate_parameters, exactOps]

theorem operatorMinus_exact [Field F] [DecidableEq F] (sqrt : F → F) (a b : Vector F Dimension)
    (j : Fin Dimension) :
    (Vector.operatorMinus (exactOps sqrt) a b).parameters j = a.parameters j - b.parameters j := by
  simp [Vector.operatorMinus, Operate_parameters, exactOps]

/-- With exact arithmetic, `SqrDistance` is the sum of the squared differences. -/
theorem SqrDistance_exact [Field F] [DecidableEq F] (sqrt : F → F) (a b : Vector F Dimension) :
    Vector.SqrDistance (exactOps sqrt) a b =
      ∑ i, (a.parameters i - b.parameters i) * (a.parameters i - b.parameters i) := by
  unfold Vector.SqrDistance
  rw [SqrMagnitude_exact]
  exact Finset.sum_congr rfl (fun i _ => by rw [operatorMinus_exact])

/-- An exact square root maps `0` to `0`. -/
theorem ExactSqrt.sqrt_zero [LinearOrderedField F] {sqrt : F → F} (hs : ExactSqrt sqrt) :
    sqrt 0 = 0 :=
  hs.eq_of_mul_self (le_refl 0) (mul_zero 0)

/-- In an object made by `construct`, reading a reference member is reading the slot of the
same object. -/
theorem Memory.readField_construct {n : Nat} (mem : Memory F n) (p : Nat) (values : Fin n → F)
    (k : Fin n) :
    (mem.construct p values).readField p k = (mem.construct p values).readIndex p k.val := by
  simp [Memory.readField, Memory.construct]

/-- In an object made by `construct`, writing through a reference member is writing the slot of
the same object. -/
theorem Memory.writeField_construct {n : Nat} (mem : Memory F n) (p : Nat) (values : Fin n → F)
    (k : Fin n) (x : F) :
    (mem.construct p values).writeField p k x =
      (mem.construct p values).writeIndex p k.val x := by
  simp [Memory.writeField, Memory.construct]

/-- After a write to a slot of an object made by `construct`, the reference member of that slot
reads the written value, as the index does. -/
theorem Memory.readField_writeIndex_construct {n : Nat} (mem : Memory F n) (p : Nat)
    (values : Fin n → F) (k : Fin n) (x : F) :
    ∃ mem1, (mem.construct p values).writeIndex p k.val x = some mem1 ∧
      mem1.readField p k = some x ∧ mem1.readIndex p k.val = some x := by
  refine ⟨Function.update (mem.construct p values) p
    (some ⟨Function.update values k x, fun j => ⟨p, j.val⟩⟩), ?_, ?_, ?_⟩
  · simp [Memory.writeIndex, Memory.construct]
  · simp [Memory.readField, Memory.readIndex]
  · simp [Memory.readIndex]

/-- With exact arithmetic over an ordered field, `SqrMagnitude` is `0` exactly for the vector
whose components are all `0`. -/
theorem SqrMagnitude_eq_zero_iff [LinearOrderedField F] (sqrt : F → F) (v : Vector F Dimension) :
    Vector.SqrMagnitude (exactOps sqrt) v = 0 ↔ ∀ i, v.parameters i = 0 := by
  rw [SqrMagnitude_exact, Finset.sum_mul_self_eq_zero_iff]
  simp

/-- With an exact square root, `Magnitude` is `0` exactly when `SqrMagnitude` is. -/
theorem Magnitude_eq_zero_iff [LinearOrderedField F] {sqrt : F → F} (hs : ExactSqrt sqrt)
    (v : Vector F Dimension) :
    Vector.Magnitude (exactOps sqrt) v = 0 ↔ Vector.SqrMagnitude (exactOps sqrt) v = 0 := by
  constructor
  · intro h
    by_contra hne
    exact Magnitude_ne_zero hs v hne h
  · intro h
    have hd : Vector.Magnitude (exactOps sqrt) v =
        sqrt (Vector.SqrMagnitude (exactOps sqrt) v) := rfl
    rw [hd, h, hs.sqrt_zero]

/-- With exact arithmetic and an exact square root, the normalization of a vector of non-zero
magnitude has magnitude `1`. -/
theorem Magnitude_Normalized [LinearOrderedField F] {sqrt : F → F} (hs : ExactSqrt sqrt)
    (v : Vector F Dimension) (hm : Vector.Magnitude (exactOps sqrt) v ≠ 0) :
    Vector.Magnitude (exactOps sqrt) (Vector.Normalized (exactOps sqrt) v) = 1 := by
  have h1 := (hs _ (SqrMagnitude_nonneg sqrt v)).2
  rw [Normalized_exact sqrt v hm]
  unfold Vector.Magnitude
  rw [SqrMagnitude_operatorMul]
  apply hs.eq_of_mul_self zero_le_one
  have key : ∀ m S : F, m ≠ 0 → m * m = S → (1 : F) * 1 = 1 / m * (1 / m) * S := by
    intro m S hm0 hS
    rw [← hS]
    field_simp
  exact key _ _ hm h1

/-- The Cauchy-Schwarz inequality for `Dot`, with exact arithmetic. -/
theorem Dot_sq_le_exact [LinearOrderedField F] (sqrt : F → F) (a b : Vector F Dimension) :
    Vector.Dot (exactOps sqrt) a b ^ 2 ≤
      Vector.SqrMagnitude (exactOps sqrt) a * Vector.SqrMagnitude (exactOps sqrt) b := by
  rw [Dot_exact, SqrMagnitude_exact, SqrMagnitude_exact]
  have h := Finset.sum_mul_sq_le_sq_mul_sq Finset.univ (fun i => a.parameters i)
    (fun i => b.parameters i)
  simpa [sq] using h

/-- With an exact square root, the square root of the product of two `SqrMagnitude`s is the
product of the `Magnitude`s. -/
theorem sqrt_SqrMagnitude_mul [LinearOrderedField F] {sqrt : F → F} (hs : ExactSqrt sqrt)
    (a b : Vector F Dimension) :
    sqrt (Vector.SqrMagnitude (exactOps sqrt) a * Vector.SqrMagnitude (exactOps sqrt) b) =
      Vector.Magnitude (exactOps sqrt) a * Vector.Magnitude (exactOps sqrt) b := by
  obtain ⟨ha0, ha1⟩ := hs _ (SqrMagnitude_nonneg sqrt a)
  obtain ⟨hb0, hb1⟩ := hs _ (SqrMagnitude_nonneg sqrt b)
  apply hs.eq_of_mul_self (mul_nonneg ha0 hb0)
  have key : ∀ x y X Y : F, x * x = X → y * y = Y → x * y * (x * y) = X * Y := by
    intro x y X Y hX hY
    rw [← hX, ← hY]
    ring
  exact key _ _ _ _ ha1 hb1

/-- With an exact square root, `Dot` lies between minus and plus the product of the
`Magnitude`s. -/
theorem Dot_abs_le [LinearOrderedField F] {sqrt : F → F} (hs : ExactSqrt sqrt)
    (a b : Vector F Dimension) :
    -(Vector.Magnitude (exactOps sqrt) a * Vector.Magnitude (exactOps sqrt) b) ≤
        Vector.Dot (exactOps sqrt) a b ∧
      Vector.Dot (exactOps sqrt) a b ≤
        Vector.Magnitude (exactOps sqrt) a * Vector.Magnitude (exactOps sqrt) b := by
  obtain ⟨ha0, ha1⟩ := hs _ (SqrMagnitude_nonneg sqrt a)
  obtain ⟨hb0, hb1⟩ := hs _ (SqrMagnitude_nonneg sqrt b)
  apply abs_le_of_sq_le_sq' _ (mul_nonneg ha0 hb0)
  have hcs := Dot_sq_le_exact sqrt a b
  have key : ∀ x y X Y : F, x * x = X → y * y = Y → (x * y) ^ 2 = X * Y := by
    intro x y X Y hX hY
    rw [← hX, ← hY]
    ring
  have hM : (Vector.Magnitude (exactOps sqrt) a * Vector.Magnitude (exactOps sqrt) b) ^ 2 =
      Vector.SqrMagnitude (exactOps sqrt) a * Vector.SqrMagnitude (exactOps sqrt) b :=
    key _ _ _ _ ha1 hb1
  exact hcs.trans (le_of_eq hM.symm)

/-- With exact arithmetic, the squared magnitude of `a - c` in terms of `a - b` and `b - c`. -/
theorem SqrMagnitude_operatorMinus_split [Field F] [DecidableEq F] (sqrt : F → F)
    (a b c : Vector F Dimension) :
    Vector.SqrMagnitude (exactOps sqrt) (Vector.operatorMinus (exactOps sqrt) a c) =
      Vector.SqrMagnitude (exactOps sqrt) (Vector.operatorMinus (exactOps sqrt) a b) +
        2 * Vector.Dot (exactOps sqrt) (Vector.operatorMinus (exactOps sqrt) a b)
          (Vector.operatorMinus (exactOps sqrt) b c) +
        Vector.SqrMagnitude (exactOps sqrt) (Vector.operatorMinus (exactOps sqrt) b c) := by
  rw [SqrMagnitude_exact, SqrMagnitude_exact, SqrMagnitude_exact, Dot_exact, Finset.mul_sum,
    ← Finset.sum_add_distrib, ← Finset.sum_add_distrib]
  refine Finset.sum_congr rfl (fun i _ => ?_)
  simp only [operatorMinus_exact]
  ring

end Loops

/-! ## Facts of `float` arithmetic -/

namespace Binary32

theorem isNaN_neg (x : Binary32) : (neg x).isNaN = x.isNaN := rfl
theorem isInfinite_neg (x : Binary32) : (neg x).isInfinite = x.isInfinite := rfl
theorem isZero_neg (x : Binary32) : (neg x).isZero = x.isZero := rfl
theorem mantissa_neg (x : Binary32) : (neg x).mantissa = x.mantissa := rfl
theorem exp2_neg (x : Binary32) : (neg x).exp2 = x.exp2 := rfl
theorem sign_neg (x : Binary32) : (neg x).sign = !x.sign := rfl

theorem neg_neg (x : Binary32) : neg (neg x) = x := by
  cases x with
  | mk s e f => simp [neg]

theorem signedMantissa_neg (x : Binary32) (e : Int) :
    (neg x).signedMantissa e = -x.signedMantissa e := by
  unfold signedMantissa
  rw [mantissa_neg, exp2_neg, sign_neg]
  cases x.sign <;> simp

theorem pack_not (s : Bool) (m : Nat) (q : Int) : pack (!s) m q = neg (pack s m q) := by
  unfold pack
  simp only
  split_ifs <;> rfl

theorem round_not (s : Bool) (M : Nat) (E : Int) : round (!s) M E = neg (round s M E) := by
  unfold round
  simp only
  split_ifs <;> first | rfl | exact pack_not _ _ _

theorem isNaN_nan : nan.isNaN = true := by decide

theorem neg_eq_of_isInfinite {x y : Binary32} (hx : x.isInfinite = true)
    (hy : y.isInfinite = true) (hs : y.sign = !x.sign) : y = neg x := by
  cases x with
  | mk sx ex fx =>
    cases y with
    | mk sy ey fy =>
      simp only [isInfinite, Bool.and_eq_true, beq_iff_eq] at hx hy
      simp only [neg, mk.injEq]
      exact ⟨hs, Fin.ext (hy.1.trans hx.1.symm), Fin.ext (hy.2.trans hx.2.symm)⟩

theorem isZero_signedZero (s : Bool) : (signedZero s).isZero = true := rfl

theorem sub_swap (x y : Binary32) :
    ((sub x y).isNaN = true ∧ (sub y x).isNaN = true) ∨ sub y x = neg (sub x y) ∨
      ((sub x y).isZero = true ∧ (sub y x).isZero = true) := by
  unfold sub add
  simp only [isNaN_neg, isInfinite_neg, sign_neg, exp2_neg, signedMantissa_neg]
  rcases Bool.eq_false_or_eq_true x.isNaN with hxn | hxn
  · left
    simp [hxn, isNaN_nan]
  rcases Bool.eq_false_or_eq_true y.isNaN with hyn | hyn
  · left
    simp [hyn, isNaN_nan]
  rcases Bool.eq_false_or_eq_true x.isInfinite with hxi | hxi <;>
    rcases Bool.eq_false_or_eq_true y.isInfinite with hyi | hyi
  · simp only [hxn, hyn, hxi, hyi, Bool.or_self, Bool.false_eq_true, if_false, if_true,
      Bool.true_and]
    rcases Bool.eq_false_or_eq_true (x.sign != !y.sign) with hs | hs
    · have hs2 : (y.sign != !x.sign) = true := by
        revert hs
        cases x.sign <;> cases y.sign <;> decide
      left
      simp [hs, hs2, isNaN_nan]
    · have hs2 : (y.sign != !x.sign) = false := by
        revert hs
        cases x.sign <;> cases y.sign <;> decide
      right
      left
      simp only [hs, hs2, Bool.false_eq_true, if_false]
      apply neg_eq_of_isInfinite hxi hyi
      revert hs
      cases x.sign <;> cases y.sign <;> decide
  · right
    left
    simp [hxn, hyn, hxi, hyi]
  · right
    left
    simp [hxn, hyn, hxi, hyi, neg_neg]
  · simp only [hxn, hyn, hxi, hyi, Bool.or_self, Bool.false_eq_true, if_false]
    rw [min_comm y.exp2 x.exp2]
    generalize x.signedMantissa (min x.exp2 y.exp2) = p
    generalize y.signedMantissa (min x.exp2 y.exp2) = q
    by_cases hz : p + -q = 0
    · have hz2 : q + -p = 0 := by omega
      right
      right
      simp [hz, hz2, isZero_signedZero]
    · have hz2 : ¬ (q + -p = 0) := by omega
      right
      left
      simp only [hz, hz2, if_false]
      have hn : (q + -p).natAbs = (p + -q).natAbs := by omega
      have hd : decide (q + -p < 0) = !decide (p + -q < 0) := by
        by_cases h : p + -q < 0
        · have h2 : ¬ (q + -p < 0) := by omega
          simp [h, h2]
        · have h2 : q + -p < 0 := by omega
          simp [h, h2]
      rw [hn, hd, round_not]

theorem isZero_isNaN {x : Binary32} (h : x.isZero = true) : x.isNaN = false := by
  simp only [isZero, Bool.and_eq_true, beq_iff_eq] at h
  simp [isNaN, h.1]

theorem isZero_isInfinite {x : Binary32} (h : x.isZero = true) : x.isInfinite = false := by
  simp only [isZero, Bool.and_eq_true, beq_iff_eq] at h
  simp [isInfinite, h.1]

theorem isInfinite_isZero {x : Binary32} (h : x.isInfinite = true) : x.isZero = false := by
  simp only [isInfinite, Bool.and_eq_true, beq_iff_eq] at h
  simp [isZero, h.1]

theorem isZero_mantissa {x : Binary32} (h : x.isZero = true) : x.mantissa = 0 := by
  simp only [isZero, Bool.and_eq_true, beq_iff_eq] at h
  simp [mantissa, h.1, h.2]

theorem isFinite_isNaN {x : Binary32} (h : x.isFinite = true) : x.isNaN = false := by
  simp only [isFinite, bne_iff_ne, ne_eq] at h
  simp [isNaN, h]

theorem isFinite_isInfinite {x : Binary32} (h : x.isFinite = true) : x.isInfinite = false := by
  simp only [isFinite, bne_iff_ne, ne_eq] at h
  simp [isInfinite, h]

/-- In `float` arithmetic `x * y` and `y * x` are the same `float`. -/
theorem mul_comm (x y : Binary32) : mul x y = mul y x := by
  unfold mul
  simp only
  have hs : (y.sign != x.sign) = (x.sign != y.sign) := by
    cases x.sign <;> cases y.sign <;> rfl
  rw [Bool.or_comm y.isNaN x.isNaN, hs, Nat.mul_comm y.mantissa x.mantissa,
    Int.add_comm y.exp2 x.exp2]
  rcases Bool.eq_false_or_eq_true x.isInfinite with hxi | hxi <;>
    rcases Bool.eq_false_or_eq_true y.isInfinite with hyi | hyi <;>
    simp [hxi, hyi, isInfinite_isZero]

theorem mul_self_of_isNaN {u : Binary32} (h : u.isNaN = true) : mul u u = nan := by
  simp [mul, h]

theorem mul_neg_neg (u : Binary32) : mul (neg u) (neg u) = mul u u := by
  unfold mul
  simp only [isNaN_neg, isInfinite_neg, isZero_neg, mantissa_neg, exp2_neg, sign_neg]
  cases u.sign <;> rfl

theorem mul_self_of_isZero {u : Binary32} (h : u.isZero = true) : mul u u = signedZero false := by
  unfold mul
  simp [isZero_isNaN h, isZero_isInfinite h, isZero_mantissa h, round]

/-- In `float` arithmetic `(x - y) * (x - y)` and `(y - x) * (y - x)` are the same `float`. -/
theorem mul_sub_self_swap (x y : Binary32) :
    mul (sub x y) (sub x y) = mul (sub y x) (sub y x) := by
  rcases sub_swap x y with h | h | h
  · rw [mul_self_of_isNaN h.1, mul_self_of_isNaN h.2]
  · rw [h, mul_neg_neg]
  · rw [mul_self_of_isZero h.1, mul_self_of_isZero h.2]

theorem eq_self {u : Binary32} (h : u.isNaN = false) : eq u u = true := by
  simp [eq, h]

theorem eq_of_isZero {u w : Binary32} (hu : u.isZero = true) (hw : w.isZero = true) :
    eq u w = true := by
  simp [eq, isZero_isNaN hu, isZero_isNaN hw, hu, hw]

/-- In `float` arithmetic `x - y == -(y - x)` unless `x - y` is NaN. -/
theorem eq_sub_neg_sub (x y : Binary32) (h : (sub x y).isNaN = false) :
    eq (sub x y) (neg (sub y x)) = true := by
  rcases sub_swap x y with h1 | h1 | h1
  · rw [h1.1] at h
    exact absurd h (by decide)
  · rw [h1, neg_neg]
    exact eq_self h
  · exact eq_of_isZero h1.1 (by rw [isZero_neg]; exact h1.2)

/-- In `float` arithmetic `x - x` is `+0` for every finite `x`. -/
theorem sub_self {x : Binary32} (h : x.isFinite = true) : sub x x = signedZero false := by
  unfold sub add
  simp only [isNaN_neg, isInfinite_neg, sign_neg, exp2_neg, signedMantissa_neg,
    isFinite_isNaN h, isFinite_isInfinite h]
  simp

end Binary32

section FloatLoops

variable {F : Type} {Dimension : Nat}

/-- A loop whose body leaves the state `s` as it is returns `s`. -/
theorem forLoop_fixed {σ : Type} (n : Nat) (body : Fin n → σ → σ) (s : σ)
    (h : ∀ i, body i s = s) : forLoop n body s = s := by
  unfold forLoop
  induction List.finRange n with
  | nil => rfl
  | cons i l ih => rw [List.foldl_cons, h i, ih]

/-- For any scalar arithmetic, `SqrDistance` as a loop over the differences of the
components. -/
theorem SqrDistance_loop (ops : FloatOps F) (a b : Vector F Dimension) :
    Vector.SqrDistance ops a b =
      forLoop Dimension
        (fun i mag => ops.plus mag
          (ops.multiplies (ops.minus (a.parameters i) (b.parameters i))
            (ops.minus (a.parameters i) (b.parameters i))))
        ops.zero := by
  unfold Vector.SqrDistance Vector.SqrMagnitude
  simp only [Vector.operatorMinus, Operate_parameters]

/-- In `float` arithmetic `SqrDistance(a, b)` and `SqrDistance(b, a)` are the same `float`. -/
theorem SqrDistance_float_swap (a b : Vector Binary32 Dimension) :
    Vector.SqrDistance binary32 a b = Vector.SqrDistance binary32 b a := by
  rw [SqrDistance_loop, SqrDistance_loop]
  have h : (fun (i : Fin Dimension) (mag : Binary32) => binary32.plus mag
        (binary32.multiplies (binary32.minus (a.parameters i) (b.parameters i))
          (binary32.minus (a.parameters i) (b.parameters i)))) =
      (fun (i : Fin Dimension) (mag : Binary32) => binary32.plus mag
        (binary32.multiplies (binary32.minus (b.parameters i) (a.parameters i))
          (binary32.minus (b.parameters i) (a.parameters i)))) := by
    funext i mag
    exact congrArg (binary32.plus mag)
      (Binary32.mul_sub_self_swap (a.parameters i) (b.parameters i))
  rw [h]

/-- In `float` arithmetic `SqrDistance(a, a)` is `+0` when every component of `a` is finite. -/
theorem SqrDistance_float_self (a : Vector Binary32 Dimension)
    (hfin : ∀ i, (a.parameters i).isFinite = true) :
    Vector.SqrDistance binary32 a a = binary32.zero := by
  rw [SqrDistance_loop]
  apply forLoop_fixed
  intro i
  have hsub : binary32.minus (a.parameters i) (a.parameters i) = Binary32.signedZero false :=
    Binary32.sub_self (hfin i)
  rw [hsub]
  decide

end FloatLoops

namespace Binary32

theorem sign_pack (s : Bool) (m : Nat) (q : Int) : (pack s m q).sign = s := by
  unfold pack
  simp only
  split_ifs <;> rfl

theorem sign_round (s : Bool) (M : Nat) (E : Int) : (round s M E).sign = s := by
  unfold round
  simp only
  split_ifs <;> first | rfl | exact sign_pack _ _ _

theorem isNaN_pack (s : Bool) (m : Nat) (q : Int) : (pack s m q).isNaN = false := by
  unfold pack
  simp only
  split_ifs with h1 h2 h3 h4 h5
  · rfl
  · rfl
  · simp only [isNaN, Bool.and_eq_false_imp, beq_iff_eq]
    intro h
    omega
  · rfl
  · rfl
  · simp only [isNaN, Bool.and_eq_false_imp, beq_iff_eq]
    intro h
    omega

theorem isNaN_round (s : Bool) (M : Nat) (E : Int) : (round s M E).isNaN = false := by
  unfold round
  simp only
  split_ifs <;> first | rfl | exact isNaN_pack _ _ _

theorem isNaN_signedZero (s : Bool) : (signedZero s).isNaN = false := rfl

theorem isNaN_infinity (s : Bool) : (infinity s).isNaN = false := rfl

/-- In `float` arithmetic `x * x` is a NaN or has a clear sign bit. -/
theorem mul_self_sign (x : Binary32) : (mul x x).isNaN = true ∨ (mul x x).sign = false := by
  have hs : (x.sign != x.sign) = false := by cases x.sign <;> rfl
  unfold mul
  simp only [hs]
  split_ifs
  · exact Or.inl isNaN_nan
  · exact Or.inl isNaN_nan
  · exact Or.inr rfl
  · exact Or.inr (sign_round _ _ _)

theorem signedMantissa_nonneg {x : Binary32} (h : x.sign = false) (e : Int) :
    0 ≤ x.signedMantissa e := by
  unfold signedMantissa
  simp only [h, Bool.false_eq_true, if_false]
  exact Int.ofNat_nonneg _

/-- In `float` arithmetic the sum of two values with clear sign bits, neither a NaN, has a clear
sign bit and is not a NaN. -/
theorem add_sign {x y : Binary32} (hx : x.isNaN = false) (hy : y.isNaN = false)
    (sx : x.sign = false) (sy : y.sign = false) :
    (add x y).isNaN = false ∧ (add x y).sign = false := by
  unfold add
  simp only [hx, hy, sx, sy, Bool.or_self, Bool.false_eq_true, if_false, bne_self_eq_false,
    Bool.and_false, Bool.and_self]
  split_ifs with h1 h2 h3
  · exact ⟨hx, sx⟩
  · exact ⟨hy, sy⟩
  · exact ⟨rfl, rfl⟩
  · refine ⟨isNaN_round _ _ _, ?_⟩
    rw [sign_round]
    have hp := signedMantissa_nonneg sx (min x.exp2 y.exp2)
    have hq := signedMantissa_nonneg sy (min x.exp2 y.exp2)
    simp only [decide_eq_false_iff_not, not_lt]
    omega

/-- In `float` arithmetic, adding to a NaN, or adding a NaN, gives a NaN. -/
theorem add_isNaN {x y : Binary32} (h : x.isNaN = true ∨ y.isNaN = true) :
    (add x y).isNaN = true := by
  unfold add
  rcases h with h | h <;> simp [h, isNaN_nan]

/-- In `float` arithmetic the square root of a NaN or of a value with a clear sign bit is a NaN
or has a clear sign bit. -/
theorem sqrt_sign {x : Binary32} (h : x.isNaN = true ∨ x.sign = false) :
    (sqrt x).isNaN = true ∨ (sqrt x).sign = false := by
  unfold sqrt
  simp only
  split_ifs <;>
    first
    | exact Or.inl isNaN_nan
    | exact Or.inr (sign_round _ _ _)
    | exact h

end Binary32

section FloatLoops2

/-- A property of the state that holds at the start of a loop and is kept by the body holds at
its end. -/
theorem forLoop_invariant {σ : Type} (P : σ → Prop) (n : Nat) (body : Fin n → σ → σ) (s : σ)
    (h0 : P s) (hstep : ∀ i t, P t → P (body i t)) : P (forLoop n body s) := by
  unfold forLoop
  induction List.finRange n generalizing s with
  | nil => exact h0
  | cons i l ih => exact ih (body i s) (hstep i s h0)

end FloatLoops2

/-! ## Claims -/

section Claims

variable {F : Type} {Dimension : Nat}

theorem foldl_take_finRange_squares (ops : FloatOps F) (v : Vector F Dimension) (k : Nat)
    (h : k ≤ Dimension) :
    ((List.finRange Dimension).take k).foldl
        (fun mag i => ops.plus mag (ops.multiplies (v.parameters i) (v.parameters i)))
        ops.zero = squaresUpTo ops v k h := by
  induction k with
  | zero => simp [squaresUpTo]
  | succ k ih =>
    have hk : k < (List.finRange Dimension).length := by simpa using h
    rw [List.take_succ, List.getElem?_eq_getElem hk, List.foldl_append,
      ih (Nat.le_of_succ_le h)]
    simp [squaresUpTo]

/-- C1. For every dimension and every vector `v`, whatever the scalar arithmetic,
`Dot(v, v)` returns the same value as `SqrMagnitude(v)`, and this value is the accumulation,
from `0`, of the products `v[i] * v[i]` in index order `i = 0, ..., Dimension - 1`. -/
theorem Dot_self_eq_SqrMagnitude (ops : FloatOps F) (v : Vector F Dimension) :
    Vector.Dot ops v v = Vector.SqrMagnitude ops v ∧
      Vector.SqrMagnitude ops v = squaresUpTo ops v Dimension (Nat.le_refl Dimension) := by
  refine ⟨rfl, ?_⟩
  rw [← foldl_take_finRange_squares ops v Dimension (Nat.le_refl Dimension)]
  unfold Vector.SqrMagnitude forLoop
  rw [List.take_of_length_le (by simp)]

/-- C3. For every dimension and all vectors `a`, `b`, `c`, with exact component arithmetic,
`(a + b) + c` and `a + (b + c)` are equal component by component. -/
theorem operatorPlus_assoc [Field F] [DecidableEq F] (sqrt : F → F)
    (a b c : Vector F Dimension) (i : Fin Dimension) :
    (Vector.operatorPlus (exactOps sqrt) (Vector.operatorPlus (exactOps sqrt) a b) c).parameters i
      = (Vector.operatorPlus (exactOps sqrt) a
          (Vector.operatorPlus (exactOps sqrt) b c)).parameters i := by
  simp only [Vector.operatorPlus, Operate_parameters, exactOps]
  exact add_assoc _ _ _

/-- C4. With exact arithmetic and an exact square root, for every vector `v` whose
`Magnitude()` is not zero: `1 / Magnitude(v)` is positive, every component of `Normalized(v)` is
the component of `v` times `1 / Magnitude(v)`, and `Normalized(v).Magnitude()` is `1`. -/
theorem Normalized_unit [LinearOrderedField F] (sqrt : F → F) (hs : ExactSqrt sqrt)
    (v : Vector F Dimension) (hm : Vector.Magnitude (exactOps sqrt) v ≠ 0) :
    0 < 1 / Vector.Magnitude (exactOps sqrt) v ∧
      (∀ i, (Vector.Normalized (exactOps sqrt) v).parameters i =
        v.parameters i * (1 / Vector.Magnitude (exactOps sqrt) v)) ∧
      Vector.Magnitude (exactOps sqrt) (Vector.Normalized (exactOps sqrt) v) = 1 := by
  obtain ⟨h0, h1⟩ := hs _ (SqrMagnitude_nonneg sqrt v)
  have hpos : 0 < Vector.Magnitude (exactOps sqrt) v := lt_of_le_of_ne h0 (Ne.symm hm)
  have hN := Normalized_exact sqrt v hm
  refine ⟨one_div_pos.2 hpos, fun i => ?_, ?_⟩
  · rw [hN, operatorMul_exact]
  · rw [hN]
    unfold Vector.Magnitude
    rw [SqrMagnitude_operatorMul]
    apply hs.eq_of_mul_self zero_le_one
    have key : ∀ m S : F, m ≠ 0 → m * m = S → (1 : F) * 1 = 1 / m * (1 / m) * S := by
      intro m S hm0 hS
      rw [← hS]
      field_simp
    exact key _ _ hm h1

theorem Normalized_unit_witness :
    Vector.Magnitude (exactOps Real.sqrt) (Vector2.ofFloats (3 : ℝ) 4).toVector ≠ 0 ∧
      (0 < 1 / Vector.Magnitude (exactOps Real.sqrt) (Vector2.ofFloats (3 : ℝ) 4).toVector ∧
      (∀ i, (Vector.Normalized (exactOps Real.sqrt) (Vector2.ofFloats (3 : ℝ) 4).toVector).parameters i
        = (Vector2.ofFloats (3 : ℝ) 4).toVector.parameters i *
          (1 / Vector.Magnitude (exactOps Real.sqrt) (Vector2.ofFloats (3 : ℝ) 4).toVector)) ∧
      Vector.Magnitude (exactOps Real.sqrt)
        (Vector.Normalized (exactOps Real.sqrt) (Vector2.ofFloats (3 : ℝ) 4).toVector) = 1) :=
  have h : Vector.Magnitude (exactOps Real.sqrt) (Vector2.ofFloats (3 : ℝ) 4).toVector ≠ 0 := by
    unfold Vector.Magnitude
    rw [SqrMagnitude_exact]
    simp [exactOps, Vector2.ofFloats, Real.sqrt_eq_zero']
    norm_num
  ⟨h, Normalized_unit Real.sqrt exactSqrt_real _ h⟩

/-- C5. For every dimension, every scalar arithmetic and every vector `v` whose `Magnitude()`
compares equal to `0`: `Normalized(v)` is `Zero()`, all of whose components are `0`; the result
is the same whatever the division operation is (none is performed); and when `0 * 0`, `0 + 0`
and `sqrt(0)` are `0` and `0 == 0` holds, `Normalized(Zero())` is `Zero()`. -/
theorem Normalized_of_zero_Magnitude (ops : FloatOps F) (v : Vector F Dimension)
    (hzero : ops.eq (Vector.Magnitude ops v) ops.zero = true) :
    Vector.Normalized ops v = Vector.Zero ops ∧
      (∀ i, (Vector.Normalized ops v).parameters i = ops.zero) ∧
      (∀ divides : F → F → F,
        Vector.Normalized (ops.withDivides divides) v = Vector.Zero ops) ∧
      (ops.multiplies ops.zero ops.zero = ops.zero → ops.plus ops.zero ops.zero = ops.zero →
        ops.sqrt ops.zero = ops.zero → ops.eq ops.zero ops.zero = true →
        Vector.Normalized ops (Vector.Zero ops : Vector F Dimension) = Vector.Zero ops) := by
  have hN : Vector.Normalized ops v = Vector.Zero ops := by
    simp only [Vector.Normalized, hzero]
    rfl
  refine ⟨hN, fun i => ?_, fun divides => ?_, fun hmul hadd hsqrt heq => ?_⟩
  · rw [hN]
    rfl
  · have hzero' : (ops.withDivides divides).eq (Vector.Magnitude (ops.withDivides divides) v)
        (ops.withDivides divides).zero = true := hzero
    simp only [Vector.Normalized, hzero']
    rfl
  · have hmag : Vector.Magnitude ops (Vector.Zero ops : Vector F Dimension) = ops.zero := by
      unfold Vector.Magnitude Vector.SqrMagnitude forLoop
      rw [foldl_zero_squares ops hmul hadd, hsqrt]
    simp only [Vector.Normalized, hmag, heq]
    rfl

theorem Normalized_of_zero_Magnitude_witness :
    (exactOps Real.sqrt).eq
        (Vector.Magnitude (exactOps Real.sqrt) (Vector.Zero (exactOps Real.sqrt) : Vector ℝ 3))
        (exactOps Real.sqrt).zero = true ∧
      Vector.Normalized (exactOps Real.sqrt) (Vector.Zero (exactOps Real.sqrt) : Vector ℝ 3) =
        Vector.Zero (exactOps Real.sqrt) :=
  have h : (exactOps Real.sqrt).eq
      (Vector.Magnitude (exactOps Real.sqrt) (Vector.Zero (exactOps Real.sqrt) : Vector ℝ 3))
      (exactOps Real.sqrt).zero = true := by
    unfold Vector.Magnitude
    rw [SqrMagnitude_exact]
    simp [exactOps, Vector.Zero, Vector.new]
  ⟨h, (Normalized_of_zero_Magnitude (exactOps Real.sqrt) _ h).1⟩

/-- C6. With exact arithmetic, for every vector `v` and every scalar `s` other than `0`,
`(v * s) / s` equals `v` component by component. -/
theorem operatorMul_operatorDiv_cancel [Field F] [DecidableEq F] (sqrt : F → F)
    (v : Vector F Dimension) (s : F) (hs : s ≠ 0) (i : Fin Dimension) :
    (Vector.operatorDiv (exactOps sqrt) (Vector.operatorMul (exactOps sqrt) v s) s).parameters i
      = v.parameters i := by
  rw [operatorDiv_exact, operatorMul_exact]
  exact mul_div_cancel_right₀ _ hs

theorem operatorMul_operatorDiv_cancel_witness :
    (2 : ℝ) ≠ 0 ∧
      (Vector.operatorDiv (exactOps Real.sqrt)
        (Vector.operatorMul (exactOps Real.sqrt) (Vector2.ofFloats (3 : ℝ) 4).toVector 2)
        2).parameters 1 = (Vector2.ofFloats (3 : ℝ) 4).toVector.parameters 1 :=
  ⟨two_ne_zero,
    operatorMul_operatorDiv_cancel Real.sqrt (Vector2.ofFloats (3 : ℝ) 4).toVector 2
      two_ne_zero 1⟩

/-- C7. `Vector3::Cross` is the 3D cross product. For any scalar arithmetic and every slot `i`,
`Cross(a, b)[i] = a[(i+1)%3] * b[(i+2)%3] - a[(i+2)%3] * b[(i+1)%3]`, that is
`(a1*b2 - a2*b1, a2*b0 - a0*b2, a0*b1 - a1*b0)`; `Cross` is a function of `a` and `b`, which it
cannot change; and with exact arithmetic `Vector3(1,0,0).Cross(Vector3(0,1,0))` has the
components `(0, 0, 1)`. -/
theorem Cross_standard [Field F] [DecidableEq F] (sqrt : F → F) :
    (∀ (G : Type) (ops : FloatOps G) (a b : Vector3 G),
      (∀ i : Fin 3, (Vector3.Cross ops a b).parameters i =
        ops.minus
          (ops.multiplies (a.parameters ⟨(i.val + 1) % 3, Nat.mod_lt _ (by decide)⟩)
            (b.parameters ⟨(i.val + 2) % 3, Nat.mod_lt _ (by decide)⟩))
          (ops.multiplies (a.parameters ⟨(i.val + 2) % 3, Nat.mod_lt _ (by decide)⟩)
            (b.parameters ⟨(i.val + 1) % 3, Nat.mod_lt _ (by decide)⟩))) ∧
      (Vector3.Cross ops a b).parameters 0 =
        ops.minus (ops.multiplies (a.parameters 1) (b.parameters 2))
          (ops.multiplies (a.parameters 2) (b.parameters 1)) ∧
      (Vector3.Cross ops a b).parameters 1 =
        ops.minus (ops.multiplies (a.parameters 2) (b.parameters 0))
          (ops.multiplies (a.parameters 0) (b.parameters 2)) ∧
      (Vector3.Cross ops a b).parameters 2 =
        ops.minus (ops.multiplies (a.parameters 0) (b.parameters 1))
          (ops.multiplies (a.parameters 1) (b.parameters 0))) ∧
    (Vector3.Cross (exactOps sqrt) (Vector3.ofFloats 1 0 0) (Vector3.ofFloats 0 1 0)).parameters 0
      = 0 ∧
    (Vector3.Cross (exactOps sqrt) (Vector3.ofFloats 1 0 0) (Vector3.ofFloats 0 1 0)).parameters 1
      = 0 ∧
    (Vector3.Cross (exactOps sqrt) (Vector3.ofFloats 1 0 0) (Vector3.ofFloats 0 1 0)).parameters 2
      = 1 := by
  refine ⟨fun G ops a b => ⟨fun i => Cross_parameters ops a b i, Cross_parameters ops a b 0,
    Cross_parameters ops a b 1, Cross_parameters ops a b 2⟩, ?_, ?_, ?_⟩ <;>
  · rw [Cross_parameters]
    simp [exactOps, Vector3.ofFloats, Vector3.rot]

/-- With exact arithmetic, for all 3D vectors `a`, `b` and every slot `i`,
`Cross(a, b)[i] = -Cross(b, a)[i]`. -/
theorem Cross_anticomm [Field F] [DecidableEq F] (sqrt : F → F) (a b : Vector3 F) (i : Fin 3) :
    (Vector3.Cross (exactOps sqrt) a b).parameters i =
      -(Vector3.Cross (exactOps sqrt) b a).parameters i := by
  rw [Cross_parameters, Cross_parameters]
  simp only [exactOps]
  ring

/-- C10. With exact arithmetic and an exact square root, for every dimension and all vectors
`a`, `b` of non-zero magnitude, `a.UnNormalDot(b)` equals `a.Normalized().Dot(b.Normalized())`;
and for `(2, 0)` and `(0, 3)` both values are `0`. -/
theorem UnNormalDot_eq_Dot_Normalized [LinearOrderedField F] (sqrt : F → F)
    (hs : ExactSqrt sqrt) (a b : Vector F Dimension)
    (ha : Vector.Magnitude (exactOps sqrt) a ≠ 0)
    (hb : Vector.Magnitude (exactOps sqrt) b ≠ 0) :
    Vector.UnNormalDot (exactOps sqrt) a b =
        Vector.Dot (exactOps sqrt) (Vector.Normalized (exactOps sqrt) a)
          (Vector.Normalized (exactOps sqrt) b) ∧
      Vector.UnNormalDot (exactOps sqrt) (Vector2.ofFloats 2 0).toVector
        (Vector2.ofFloats 0 3).toVector = 0 ∧
      Vector.Dot (exactOps sqrt)
        (Vector.Normalized (exactOps sqrt) (Vector2.ofFloats 2 0).toVector)
        (Vector.Normalized (exactOps sqrt) (Vector2.ofFloats 0 3).toVector) = 0 := by
  have main : ∀ {n : Nat} (u w : Vector F n), Vector.Magnitude (exactOps sqrt) u ≠ 0 →
      Vector.Magnitude (exactOps sqrt) w ≠ 0 →
      Vector.UnNormalDot (exactOps sqrt) u w =
        Vector.Dot (exactOps sqrt) (Vector.Normalized (exactOps sqrt) u)
          (Vector.Normalized (exactOps sqrt) w) := by
    intro n u w hu hw
    obtain ⟨hu0, hu1⟩ := hs _ (SqrMagnitude_nonneg sqrt u)
    obtain ⟨hw0, hw1⟩ := hs _ (SqrMagnitude_nonneg sqrt w)
    have hprod : sqrt (Vector.SqrMagnitude (exactOps sqrt) u *
        Vector.SqrMagnitude (exactOps sqrt) w) =
        Vector.Magnitude (exactOps sqrt) u * Vector.Magnitude (exactOps sqrt) w := by
      apply hs.eq_of_mul_self (mul_nonneg hu0 hw0)
      have key : ∀ x y X Y : F, x * x = X → y * y = Y → x * y * (x * y) = X * Y := by
        intro x y X Y hX hY
        rw [← hX, ← hY]
        ring
      exact key _ _ _ _ hu1 hw1
    rw [Normalized_exact sqrt u hu, Normalized_exact sqrt w hw, Dot_operatorMul]
    have hU : Vector.UnNormalDot (exactOps sqrt) u w =
        Vector.Dot (exactOps sqrt) u w /
          sqrt (Vector.SqrMagnitude (exactOps sqrt) u *
            Vector.SqrMagnitude (exactOps sqrt) w) := rfl
    rw [hU, hprod]
    field_simp
  have hdot : Vector.Dot (exactOps sqrt) (Vector2.ofFloats (2 : F) 0).toVector
      (Vector2.ofFloats (0 : F) 3).toVector = 0 := by
    rw [Dot_exact]
    simp [Vector2.ofFloats]
  have h20 : Vector.Magnitude (exactOps sqrt) (Vector2.ofFloats (2 : F) 0).toVector ≠ 0 := by
    apply Magnitude_ne_zero hs
    rw [SqrMagnitude_exact]
    simp [Vector2.ofFloats]
  have h03 : Vector.Magnitude (exactOps sqrt) (Vector2.ofFloats (0 : F) 3).toVector ≠ 0 := by
    apply Magnitude_ne_zero hs
    rw [SqrMagnitude_exact]
    simp [Vector2.ofFloats]
  have hun : Vector.UnNormalDot (exactOps sqrt) (Vector2.ofFloats (2 : F) 0).toVector
      (Vector2.ofFloats (0 : F) 3).toVector = 0 := by
    have hU : Vector.UnNormalDot (exactOps sqrt) (Vector2.ofFloats (2 : F) 0).toVector
        (Vector2.ofFloats (0 : F) 3).toVector =
        Vector.Dot (exactOps sqrt) (Vector2.ofFloats (2 : F) 0).toVector
          (Vector2.ofFloats (0 : F) 3).toVector /
          sqrt (Vector.SqrMagnitude (exactOps sqrt) (Vector2.ofFloats (2 : F) 0).toVector *
            Vector.SqrMagnitude (exactOps sqrt) (Vector2.ofFloats (0 : F) 3).toVector) := rfl
    rw [hU, hdot, zero_div]
  exact ⟨main a b ha hb, hun, by rw [← main _ _ h20 h03]; exact hun⟩

theorem UnNormalDot_eq_Dot_Normalized_witness :
    Vector.Magnitude (exactOps Real.sqrt) (Vector2.ofFloats (3 : ℝ) 4).toVector ≠ 0 ∧
      Vector.Magnitude (exactOps Real.sqrt) (Vector2.ofFloats (1 : ℝ) 0).toVector ≠ 0 ∧
      Vector.UnNormalDot (exactOps Real.sqrt) (Vector2.ofFloats (3 : ℝ) 4).toVector
          (Vector2.ofFloats (1 : ℝ) 0).toVector =
        Vector.Dot (exactOps Real.sqrt)
          (Vector.Normalized (exactOps Real.sqrt) (Vector2.ofFloats (3 : ℝ) 4).toVector)
          (Vector.Normalized (exactOps Real.sqrt) (Vector2.ofFloats (1 : ℝ) 0).toVector) :=
  have h34 : Vector.Magnitude (exactOps Real.sqrt) (Vector2.ofFloats (3 : ℝ) 4).toVector ≠ 0 := by
    apply Magnitude_ne_zero exactSqrt_real
    rw [SqrMagnitude_exact]
    simp [Vector2.ofFloats]
    norm_num
  have h10 : Vector.Magnitude (exactOps Real.sqrt) (Vector2.ofFloats (1 : ℝ) 0).toVector ≠ 0 := by
    apply Magnitude_ne_zero exactSqrt_real
    rw [SqrMagnitude_exact]
    simp [Vector2.ofFloats]
  ⟨h34, h10, (UnNormalDot_eq_Dot_Normalized Real.sqrt exactSqrt_real _ _ h34 h10).1⟩

/-- With exact arithmetic (and any square root function), for every dimension and all
vectors `a`, `b`: `Distance(a, b)` equals `Distance(b, a)` and `SqrDistance(a, b)` equals
`SqrDistance(b, a)`. -/
theorem Distance_symm [Field F] [DecidableEq F] (sqrt : F → F) (a b : Vector F Dimension) :
    Vector.Distance (exactOps sqrt) a b = Vector.Distance (exactOps sqrt) b a ∧
      Vector.SqrDistance (exactOps sqrt) a b = Vector.SqrDistance (exactOps sqrt) b a := by
  have hsq : Vector.SqrDistance (exactOps sqrt) a b = Vector.SqrDistance (exactOps sqrt) b a := by
    rw [SqrDistance_exact, SqrDistance_exact]
    refine Finset.sum_congr rfl (fun i _ => ?_)
    ring
  refine ⟨?_, hsq⟩
  have hd : ∀ u w : Vector F Dimension, Vector.Distance (exactOps sqrt) u w =
      sqrt (Vector.SqrDistance (exactOps sqrt) u w) := fun _ _ => rfl
  rw [hd, hd, hsq]

/-- With exact arithmetic and an exact square root, for every dimension and every vector
`a`: `Distance(a, a)` is `0` and `SqrDistance(a, a)` is `0`. -/
theorem Distance_self [LinearOrderedField F] (sqrt : F → F) (hs : ExactSqrt sqrt)
    (a : Vector F Dimension) :
    Vector.Distance (exactOps sqrt) a a = 0 ∧ Vector.SqrDistance (exactOps sqrt) a a = 0 := by
  have hsq : Vector.SqrDistance (exactOps sqrt) a a = 0 := by
    rw [SqrDistance_exact]
    exact Finset.sum_eq_zero (fun i _ => by rw [sub_self, mul_zero])
  refine ⟨?_, hsq⟩
  have hd : Vector.Distance (exactOps sqrt) a a =
      sqrt (Vector.SqrDistance (exactOps sqrt) a a) := rfl
  rw [hd, hsq, hs.sqrt_zero]

theorem Distance_self_witness :
    ExactSqrt Real.sqrt ∧
      Vector.Distance (exactOps Real.sqrt) (Vector2.ofFloats (3 : ℝ) 4).toVector
        (Vector2.ofFloats (3 : ℝ) 4).toVector = 0 :=
  ⟨exactSqrt_real, (Distance_self Real.sqrt exactSqrt_real _).1⟩

/-- C13. Indexed access is bounds-checked. For every vector `v` and every index `i`: when
`i < Dimension` the read `v[i]` succeeds with the component in slot `i`; the read fails, and
then with `out_of_range`, if and only if `Dimension ≤ i`; when `i < Dimension` the write
`v[i] = x` succeeds, slot `i` of the result is `x` and every other slot is as before; and the
write fails with `out_of_range` when `Dimension ≤ i`. -/
theorem operatorIndex_bounds_checked (v : Vector F Dimension) (i : Nat) (x : F) :
    (∀ h : i < Dimension, v.operatorIndex i = .ok (v.parameters ⟨i, h⟩)) ∧
      (v.operatorIndex i = .error .out_of_range ↔ Dimension ≤ i) ∧
      ((∃ e, v.operatorIndex i = .error e) ↔ Dimension ≤ i) ∧
      (∀ h : i < Dimension, ∃ w, v.assignIndex i x = .ok w ∧ w.parameters ⟨i, h⟩ = x ∧
        ∀ j : Fin Dimension, j.val ≠ i → w.parameters j = v.parameters j) ∧
      (Dimension ≤ i → v.assignIndex i x = .error .out_of_range) := by
  refine ⟨fun h => ?_, ?_, ?_, fun h => ?_, fun h => ?_⟩
  · simp [Vector.operatorIndex, h]
  · by_cases h : i < Dimension
    · simp [Vector.operatorIndex, h]
    · simp [Vector.operatorIndex, h, Nat.le_of_not_lt h]
  · by_cases h : i < Dimension
    · simp [Vector.operatorIndex, h]
    · refine ⟨fun _ => Nat.le_of_not_lt h, fun _ => ⟨.out_of_range, ?_⟩⟩
      simp [Vector.operatorIndex, h]
  · refine ⟨⟨Function.update v.parameters ⟨i, h⟩ x⟩, ?_, ?_, fun j hj => ?_⟩
    · simp [Vector.assignIndex, h]
    · simp
    · have hne : j ≠ ⟨i, h⟩ := fun hji => hj (congrArg Fin.val hji)
      simp [Function.update_noteq hne]
  · simp [Vector.assignIndex, Nat.not_lt.2 h]

/-- C14. `operator+` and `operator-` are elementwise: for any scalar arithmetic, every
dimension, all vectors `a`, `b` and every slot `i`, `(a + b)[i] = a[i] + b[i]` and
`(a - b)[i] = a[i] - b[i]`; both are functions of `a` and `b`, which they cannot change, and
return a new vector; and with exact arithmetic `(1, 0) + (0, 1)` has the components
`(1, 1)`. -/
theorem operatorPlus_operatorMinus_elementwise [Field F] [DecidableEq F] (sqrt : F → F) :
    (∀ (G : Type) (ops : FloatOps G) (n : Nat) (a b : Vector G n) (i : Fin n),
      (Vector.operatorPlus ops a b).parameters i = ops.plus (a.parameters i) (b.parameters i) ∧
      (Vector.operatorMinus ops a b).parameters i =
        ops.minus (a.parameters i) (b.parameters i)) ∧
    (∀ (n : Nat) (a b : Vector F n) (i : Fin n),
      (Vector.operatorPlus (exactOps sqrt) a b).parameters i =
        a.parameters i + b.parameters i ∧
      (Vector.operatorMinus (exactOps sqrt) a b).parameters i =
        a.parameters i - b.parameters i) ∧
    (Vector.operatorPlus (exactOps sqrt) (Vector2.ofFloats (1 : F) 0).toVector
      (Vector2.ofFloats (0 : F) 1).toVector).parameters 0 = 1 ∧
    (Vector.operatorPlus (exactOps sqrt) (Vector2.ofFloats (1 : F) 0).toVector
      (Vector2.ofFloats (0 : F) 1).toVector).parameters 1 = 1 := by
  refine ⟨fun G ops n a b i => ⟨?_, ?_⟩, fun n a b i => ⟨?_, ?_⟩, ?_, ?_⟩
  · simp only [Vector.operatorPlus, Operate_parameters]
  · simp only [Vector.operatorMinus, Operate_parameters]
  · rw [operatorPlus_exact]
  · rw [operatorMinus_exact]
  · rw [operatorPlus_exact]
    simp [Vector2.ofFloats]
  · rw [operatorPlus_exact]
    simp [Vector2.ofFloats]

/-- With exact arithmetic and an exact square root, for every vector `v`:
`SqrMagnitude(v)` is the sum of the squares of the components and is not negative;
`Magnitude(v)` is the square root of `SqrMagnitude(v)`, is not negative, and its square is
`SqrMagnitude(v)`; and the vector `(3, 4)` has `Magnitude` `5`. -/
theorem SqrMagnitude_Magnitude_spec [LinearOrderedField F] (sqrt : F → F) (hs : ExactSqrt sqrt)
    (v : Vector F Dimension) :
    Vector.SqrMagnitude (exactOps sqrt) v = ∑ i, v.parameters i ^ 2 ∧
      0 ≤ Vector.SqrMagnitude (exactOps sqrt) v ∧
      Vector.Magnitude (exactOps sqrt) v = sqrt (Vector.SqrMagnitude (exactOps sqrt) v) ∧
      0 ≤ Vector.Magnitude (exactOps sqrt) v ∧
      Vector.Magnitude (exactOps sqrt) v ^ 2 = Vector.SqrMagnitude (exactOps sqrt) v ∧
      Vector.Magnitude (exactOps sqrt) (Vector2.ofFloats (3 : F) 4).toVector = 5 := by
  obtain ⟨h0, h1⟩ := hs _ (SqrMagnitude_nonneg sqrt v)
  refine ⟨?_, SqrMagnitude_nonneg sqrt v, rfl, h0, ?_, ?_⟩
  · rw [SqrMagnitude_exact]
    exact Finset.sum_congr rfl (fun i _ => (sq _).symm)
  · rw [sq]
    exact h1
  · have h5 : Vector.Magnitude (exactOps sqrt) (Vector2.ofFloats (3 : F) 4).toVector =
        sqrt (Vector.SqrMagnitude (exactOps sqrt) (Vector2.ofFloats (3 : F) 4).toVector) := rfl
    rw [h5]
    apply hs.eq_of_mul_self (by norm_num)
    rw [SqrMagnitude_exact]
    simp [Vector2.ofFloats]
    norm_num

theorem SqrMagnitude_Magnitude_spec_witness :
    ExactSqrt Real.sqrt ∧
      Vector.Magnitude (exactOps Real.sqrt) (Vector2.ofFloats (3 : ℝ) 4).toVector = 5 :=
  ⟨exactSqrt_real,
    (SqrMagnitude_Magnitude_spec Real.sqrt exactSqrt_real
      (Vector2.ofFloats (3 : ℝ) 4).toVector).2.2.2.2.2⟩

/-- C16, at the failing input. Run `Vector2 u(1, 2); Vector2 w = u; w[0] = 5;` with `u` at
address `0` and `w` at address `1`: afterwards `w[0]` reads `5` while `w.X` reads `1`, the
value of `u[0]`.  Run `Vector2 u(1, 2); Vector2 w = u; w.X = 7;` instead: afterwards `w[0]`
still reads `1` and `u[0]` reads `7`.  The same with `Vector3 u(1, 2, 3); Vector3 w = u;
w[2] = 9;`: `w[2]` reads `9` and `w.Z` reads `3`. -/
theorem copied_named_field_not_in_sync :
    (∃ mem : Memory ℚ 2,
      ((Memory.construct Memory.empty 0 ![1, 2]).copyConstruct 1 0).bind
        (fun m => m.writeIndex 1 0 5) = some mem ∧
      mem.readIndex 1 0 = some 5 ∧ Vector2.readX mem 1 = some 1 ∧
      mem.readIndex 0 0 = some 1) ∧
    (∃ mem : Memory ℚ 2,
      ((Memory.construct Memory.empty 0 ![1, 2]).copyConstruct 1 0).bind
        (fun m => Vector2.writeX m 1 7) = some mem ∧
      mem.readIndex 1 0 = some 1 ∧ Vector2.readX mem 1 = some 7 ∧
      mem.readIndex 0 0 = some 7) ∧
    (∃ mem : Memory ℚ 3,
      ((Memory.construct Memory.empty 0 ![1, 2, 3]).copyConstruct 1 0).bind
        (fun m => m.writeIndex 1 2 9) = some mem ∧
      mem.readIndex 1 2 = some 9 ∧ Vector3.readZ mem 1 = some 3) := by
  refine ⟨⟨_, rfl, ?_, ?_, ?_⟩, ⟨_, rfl, ?_, ?_, ?_⟩, ⟨_, rfl, ?_, ?_⟩⟩ <;>
    simp [Memory.readIndex, Memory.readField, Memory.construct, Memory.empty, Vector2.readX,
      Vector3.readZ, Function.update]

/-- C17. With exact arithmetic, for all 3D vectors `a`, `b`: `Dot(a, Cross(a, b))` is `0` and
`Dot(b, Cross(a, b))` is `0`. -/
theorem Dot_Cross_eq_zero [Field F] [DecidableEq F] (sqrt : F → F) (a b : Vector3 F) :
    Vector.Dot (exactOps sqrt) a.toVector (Vector3.Cross (exactOps sqrt) a b).toVector = 0 ∧
      Vector.Dot (exactOps sqrt) b.toVector (Vector3.Cross (exactOps sqrt) a b).toVector = 0 := by
  have h0 : (Vector3.Cross (exactOps sqrt) a b).parameters 0 =
      a.parameters 1 * b.parameters 2 - a.parameters 2 * b.parameters 1 :=
    Cross_parameters (exactOps sqrt) a b 0
  have h1 : (Vector3.Cross (exactOps sqrt) a b).parameters 1 =
      a.parameters 2 * b.parameters 0 - a.parameters 0 * b.parameters 2 :=
    Cross_parameters (exactOps sqrt) a b 1
  have h2 : (Vector3.Cross (exactOps sqrt) a b).parameters 2 =
      a.parameters 0 * b.parameters 1 - a.parameters 1 * b.parameters 0 :=
    Cross_parameters (exactOps sqrt) a b 2
  constructor
  · rw [Dot_exact, Fin.sum_univ_three, h0, h1, h2]
    ring
  · rw [Dot_exact, Fin.sum_univ_three, h0, h1, h2]
    ring

/-- With exact arithmetic and an exact square root, for every dimension and every vector
`v`: `Magnitude(v)` is `0` if and only if every component of `v` is `0`, and so is
`SqrMagnitude(v)`; the guard `magnitude == 0.0f` of `Normalized` holds if and only if every
component is `0`; `Normalized(v)` is `Zero()` if and only if every component of `v` is `0`; and
when some component is not `0`, `Normalized(v)` has magnitude `1`. -/
theorem Normalized_guard_iff_zero [LinearOrderedField F] (sqrt : F → F) (hs : ExactSqrt sqrt)
    (v : Vector F Dimension) :
    (Vector.Magnitude (exactOps sqrt) v = 0 ↔ ∀ i, v.parameters i = 0) ∧
      (Vector.SqrMagnitude (exactOps sqrt) v = 0 ↔ ∀ i, v.parameters i = 0) ∧
      ((exactOps sqrt).eq (Vector.Magnitude (exactOps sqrt) v) (exactOps sqrt).zero = true ↔
        ∀ i, v.parameters i = 0) ∧
      (Vector.Normalized (exactOps sqrt) v = Vector.Zero (exactOps sqrt) ↔
        ∀ i, v.parameters i = 0) ∧
      ((∃ i, v.parameters i ≠ 0) →
        Vector.Magnitude (exactOps sqrt) (Vector.Normalized (exactOps sqrt) v) = 1) := by
  have hmag : Vector.Magnitude (exactOps sqrt) v = 0 ↔ ∀ i, v.parameters i = 0 :=
    (Magnitude_eq_zero_iff hs v).trans (SqrMagnitude_eq_zero_iff sqrt v)
  have hguard : (exactOps sqrt).eq (Vector.Magnitude (exactOps sqrt) v) (exactOps sqrt).zero
      = true ↔ Vector.Magnitude (exactOps sqrt) v = 0 := by
    simp [exactOps]
  refine ⟨hmag, SqrMagnitude_eq_zero_iff sqrt v, hguard.trans hmag, ⟨fun hN => ?_, fun hz => ?_⟩,
    fun hex => ?_⟩
  · by_contra hnz
    have hm : Vector.Magnitude (exactOps sqrt) v ≠ 0 := fun h0 => hnz (hmag.1 h0)
    obtain ⟨i, hi⟩ := not_forall.1 hnz
    have hcomp : (Vector.Normalized (exactOps sqrt) v).parameters i =
        v.parameters i * (1 / Vector.Magnitude (exactOps sqrt) v) := by
      rw [Normalized_exact sqrt v hm, operatorMul_exact]
    have hzero : (Vector.Normalized (exactOps sqrt) v).parameters i = 0 := by
      rw [hN]
      rfl
    rw [hzero] at hcomp
    exact mul_ne_zero hi (one_div_ne_zero hm) hcomp.symm
  · have hg := (hguard.trans hmag).2 hz
    simp only [Vector.Normalized, hg]
    rfl
  · apply Magnitude_Normalized hs
    intro h0
    obtain ⟨i, hi⟩ := hex
    exact hi (hmag.1 h0 i)

theorem Normalized_guard_iff_zero_witness :
    ExactSqrt Real.sqrt ∧
      (Vector.Magnitude (exactOps Real.sqrt) (Vector2.ofFloats (3 : ℝ) 4).toVector = 0 ↔
        ∀ i, (Vector2.ofFloats (3 : ℝ) 4).toVector.parameters i = 0) :=
  ⟨exactSqrt_real,
    (Normalized_guard_iff_zero Real.sqrt exactSqrt_real (Vector2.ofFloats (3 : ℝ) 4).toVector).1⟩

/-- C19. With exact arithmetic, for every dimension and all vectors `a`, `b`:
`Dot(a, b)^2 ≤ SqrMagnitude(a) * SqrMagnitude(b)`; and with an exact square root, when both
magnitudes are not `0`, `UnNormalDot(a, b)` lies in the closed interval from `-1` to `1`. -/
theorem UnNormalDot_bounds [LinearOrderedField F] (sqrt : F → F) (hs : ExactSqrt sqrt)
    (a b : Vector F Dimension) :
    Vector.Dot (exactOps sqrt) a b ^ 2 ≤
        Vector.SqrMagnitude (exactOps sqrt) a * Vector.SqrMagnitude (exactOps sqrt) b ∧
      (Vector.Magnitude (exactOps sqrt) a ≠ 0 → Vector.Magnitude (exactOps sqrt) b ≠ 0 →
        -1 ≤ Vector.UnNormalDot (exactOps sqrt) a b ∧
          Vector.UnNormalDot (exactOps sqrt) a b ≤ 1) := by
  refine ⟨Dot_sq_le_exact sqrt a b, fun ha hb => ?_⟩
  have ha0 := (hs _ (SqrMagnitude_nonneg sqrt a)).1
  have hb0 := (hs _ (SqrMagnitude_nonneg sqrt b)).1
  have hpos : 0 < Vector.Magnitude (exactOps sqrt) a * Vector.Magnitude (exactOps sqrt) b :=
    mul_pos (lt_of_le_of_ne ha0 (Ne.symm ha)) (lt_of_le_of_ne hb0 (Ne.symm hb))
  have hU : Vector.UnNormalDot (exactOps sqrt) a b =
      Vector.Dot (exactOps sqrt) a b /
        sqrt (Vector.SqrMagnitude (exactOps sqrt) a * Vector.SqrMagnitude (exactOps sqrt) b) :=
    rfl
  obtain ⟨hlo, hhi⟩ := Dot_abs_le hs a b
  rw [hU, sqrt_SqrMagnitude_mul hs]
  constructor
  · rw [le_div_iff₀ hpos]
    simpa using hlo
  · rw [div_le_one₀ hpos]
    exact hhi

theorem UnNormalDot_bounds_witness :
    ExactSqrt Real.sqrt ∧
      Vector.Dot (exactOps Real.sqrt) (Vector2.ofFloats (3 : ℝ) 4).toVector
          (Vector2.ofFloats (1 : ℝ) 0).toVector ^ 2 ≤
        Vector.SqrMagnitude (exactOps Real.sqrt) (Vector2.ofFloats (3 : ℝ) 4).toVector *
          Vector.SqrMagnitude (exactOps Real.sqrt) (Vector2.ofFloats (1 : ℝ) 0).toVector :=
  ⟨exactSqrt_real, (UnNormalDot_bounds Real.sqrt exactSqrt_real _ _).1⟩

/-- C20. With exact arithmetic and an exact square root, for every dimension and all vectors
`a`, `b`, `c`: `Distance(a, c) ≤ Distance(a, b) + Distance(b, c)`. -/
theorem Distance_triangle [LinearOrderedField F] (sqrt : F → F) (hs : ExactSqrt sqrt)
    (a b c : Vector F Dimension) :
    Vector.Distance (exactOps sqrt) a c ≤
      Vector.Distance (exactOps sqrt) a b + Vector.Distance (exactOps sqrt) b c := by
  have hd : ∀ u w : Vector F Dimension, Vector.Distance (exactOps sqrt) u w =
      Vector.Magnitude (exactOps sqrt) (Vector.operatorMinus (exactOps sqrt) u w) :=
    fun _ _ => rfl
  rw [hd, hd, hd]
  obtain ⟨hx0, hx1⟩ := hs _ (SqrMagnitude_nonneg sqrt (Vector.operatorMinus (exactOps sqrt) a b))
  obtain ⟨hy0, hy1⟩ := hs _ (SqrMagnitude_nonneg sqrt (Vector.operatorMinus (exactOps sqrt) b c))
  obtain ⟨hz0, hz1⟩ := hs _ (SqrMagnitude_nonneg sqrt (Vector.operatorMinus (exactOps sqrt) a c))
  have hdot := (Dot_abs_le hs (Vector.operatorMinus (exactOps sqrt) a b)
    (Vector.operatorMinus (exactOps sqrt) b c)).2
  have hsplit := SqrMagnitude_operatorMinus_split sqrt a b c
  have key : ∀ x y z X Y Z D : F, x * x = X → y * y = Y → z * z = Z → D ≤ x * y →
      Z = X + 2 * D + Y → z ^ 2 ≤ (x + y) ^ 2 := by
    intro x y z X Y Z D hX hY hZ hD hsp
    have h1 : z ^ 2 = X + 2 * D + Y := by rw [sq, hZ, hsp]
    have h2 : (x + y) ^ 2 = X + 2 * (x * y) + Y := by
      rw [← hX, ← hY]
      ring
    rw [h1, h2]
    linarith
  exact le_of_sq_le_sq (key _ _ _ _ _ _ _ hx1 hy1 hz1 hdot hsplit) (add_nonneg hx0 hy0)

theorem Distance_triangle_witness :
    ExactSqrt Real.sqrt ∧
      Vector.Distance (exactOps Real.sqrt) (Vector2.ofFloats (0 : ℝ) 0).toVector
          (Vector2.ofFloats (3 : ℝ) 4).toVector ≤
        Vector.Distance (exactOps Real.sqrt) (Vector2.ofFloats (0 : ℝ) 0).toVector
            (Vector2.ofFloats (3 : ℝ) 0).toVector +
          Vector.Distance (exactOps Real.sqrt) (Vector2.ofFloats (3 : ℝ) 0).toVector
            (Vector2.ofFloats (3 : ℝ) 4).toVector :=
  ⟨exactSqrt_real, Distance_triangle Real.sqrt exactSqrt_real _ _ _⟩

end Claims

/-! ## Evaluations in `float` arithmetic

Evaluations of the embedding in `binary32`, the arithmetic of the type `float`.  The inputs are
given by their bit patterns: `0x3F800000` is `1`, `0x40000000` is `2`, `0x40400000` is `3`,
`0x40800000` is `4`, `0x40A00000` is `5`, `0x40E00000` is `7`, `0x45800000` is `4096`,
`0x3DCCCCCD` is `0.1f`, `0x60AD78EC` is `1e20f`, `0x62000000` is `2^69`, `0x62800000` is `2^70`,
`0x0D800000` is `2^-100`, `0x71800000` is `2^100`, `0x7F800000` is `+infinity` and
`0x80000000` is `-0`. -/

set_option maxRecDepth 8192

section Binary32Evaluations

open Binary32

/-- C8 in `float` arithmetic, for `a = (0, 2^70, 2^70)` and `b = (1, 2^70, 2^69)`: both products
of slot `0` overflow to `+infinity`, so `Cross(a, b)[0]` and `Cross(b, a)[0]` are NaN, and
`Cross(a, b)[0] == -Cross(b, a)[0]` is false. -/
theorem Cross_anticomm_float_counterexample :
    ((Vector3.Cross binary32
        (Vector3.ofFloats (ofBits 0) (ofBits 0x62800000) (ofBits 0x62800000))
        (Vector3.ofFloats (ofBits 0x3F800000) (ofBits 0x62800000) (ofBits 0x62000000))).parameters 0).isNaN
      = true ∧
    ((Vector3.Cross binary32
        (Vector3.ofFloats (ofBits 0x3F800000) (ofBits 0x62800000) (ofBits 0x62000000))
        (Vector3.ofFloats (ofBits 0) (ofBits 0x62800000) (ofBits 0x62800000))).parameters 0).isNaN
      = true ∧
    binary32.eq
      ((Vector3.Cross binary32
        (Vector3.ofFloats (ofBits 0) (ofBits 0x62800000) (ofBits 0x62800000))
        (Vector3.ofFloats (ofBits 0x3F800000) (ofBits 0x62800000) (ofBits 0x62000000))).parameters 0)
      (Binary32.neg ((Vector3.Cross binary32
        (Vector3.ofFloats (ofBits 0x3F800000) (ofBits 0x62800000) (ofBits 0x62000000))
        (Vector3.ofFloats (ofBits 0) (ofBits 0x62800000) (ofBits 0x62800000))).parameters 0))
      = false := by
  decide

/-- C11 in `float` arithmetic, for `a = (+infinity, +infinity)` and `b = (+infinity, 1)`:
`SqrDistance` and `Distance` are NaN in both orders, so `SqrDistance(a, b) == SqrDistance(b, a)`
and `Distance(a, b) == Distance(b, a)` are false. -/
theorem Distance_symm_float_counterexample :
    (Vector.SqrDistance binary32 (Vector2.ofFloats (ofBits 0x7F800000) (ofBits 0x7F800000)).toVector
        (Vector2.ofFloats (ofBits 0x7F800000) (ofBits 0x3F800000)).toVector).isNaN = true ∧
    (Vector.SqrDistance binary32 (Vector2.ofFloats (ofBits 0x7F800000) (ofBits 0x3F800000)).toVector
        (Vector2.ofFloats (ofBits 0x7F800000) (ofBits 0x7F800000)).toVector).isNaN = true ∧
    binary32.eq
      (Vector.SqrDistance binary32
        (Vector2.ofFloats (ofBits 0x7F800000) (ofBits 0x7F800000)).toVector
        (Vector2.ofFloats (ofBits 0x7F800000) (ofBits 0x3F800000)).toVector)
      (Vector.SqrDistance binary32
        (Vector2.ofFloats (ofBits 0x7F800000) (ofBits 0x3F800000)).toVector
        (Vector2.ofFloats (ofBits 0x7F800000) (ofBits 0x7F800000)).toVector) = false ∧
    binary32.eq
      (Vector.Distance binary32
        (Vector2.ofFloats (ofBits 0x7F800000) (ofBits 0x7F800000)).toVector
        (Vector2.ofFloats (ofBits 0x7F800000) (ofBits 0x3F800000)).toVector)
      (Vector.Distance binary32
        (Vector2.ofFloats (ofBits 0x7F800000) (ofBits 0x3F800000)).toVector
        (Vector2.ofFloats (ofBits 0x7F800000) (ofBits 0x7F800000)).toVector) = false := by
  decide

/-- C12 in `float` arithmetic.  `Vector2(1, 2) / 0` is `(+infinity, +infinity)`; for this vector
`a`, and for `a = (+infinity, 0)`, `SqrDistance(a, a)` and `Distance(a, a)` are NaN and do not
compare equal to `0`. -/
theorem Distance_self_float_counterexample :
    (Vector.operatorDiv binary32
          (Vector2.ofFloats (ofBits 0x3F800000) (ofBits 0x40000000)).toVector (ofBits 0)).parameters 0 = ofBits 0x7F800000 ∧
    (Vector.operatorDiv binary32
          (Vector2.ofFloats (ofBits 0x3F800000) (ofBits 0x40000000)).toVector (ofBits 0)).parameters 1 = ofBits 0x7F800000 ∧
    (Vector.SqrDistance binary32
        (Vector.operatorDiv binary32
          (Vector2.ofFloats (ofBits 0x3F800000) (ofBits 0x40000000)).toVector (ofBits 0))
        (Vector.operatorDiv binary32
          (Vector2.ofFloats (ofBits 0x3F800000) (ofBits 0x40000000)).toVector (ofBits 0))).isNaN = true ∧
    binary32.eq
      (Vector.Distance binary32
        (Vector.operatorDiv binary32
          (Vector2.ofFloats (ofBits 0x3F800000) (ofBits 0x40000000)).toVector (ofBits 0))
        (Vector.operatorDiv binary32
          (Vector2.ofFloats (ofBits 0x3F800000) (ofBits 0x40000000)).toVector (ofBits 0)))
      binary32.zero = false ∧
    (Vector.SqrDistance binary32 (Vector2.ofFloats (ofBits 0x7F800000) (ofBits 0)).toVector
        (Vector2.ofFloats (ofBits 0x7F800000) (ofBits 0)).toVector).isNaN = true ∧
    (Vector.Distance binary32 (Vector2.ofFloats (ofBits 0x7F800000) (ofBits 0)).toVector
        (Vector2.ofFloats (ofBits 0x7F800000) (ofBits 0)).toVector).isNaN = true ∧
    binary32.eq
      (Vector.SqrDistance binary32 (Vector2.ofFloats (ofBits 0x7F800000) (ofBits 0)).toVector
        (Vector2.ofFloats (ofBits 0x7F800000) (ofBits 0)).toVector)
      binary32.zero = false ∧
    binary32.eq
      (Vector.Distance binary32 (Vector2.ofFloats (ofBits 0x7F800000) (ofBits 0)).toVector
        (Vector2.ofFloats (ofBits 0x7F800000) (ofBits 0)).toVector)
      binary32.zero = false := by
  decide

/-- C15 in `float` arithmetic.  For `v = (1, 1)`: `SqrMagnitude(v)` is `2`, `Magnitude(v)` is
`0x3FB504F3`, and `Magnitude(v) * Magnitude(v)` is `0x3FFFFFFF` (1.99999988), which does not
compare equal to `SqrMagnitude(v)`.  And `SqrMagnitude(4096, 1, 1)` is `16777216`
(`0x4B800000`) while `SqrMagnitude(1, 1, 4096)` is `16777218` (`0x4B800001`), for the same
three squares. -/
theorem SqrMagnitude_Magnitude_float_counterexample :
    Vector.SqrMagnitude binary32 (Vector2.ofFloats (ofBits 0x3F800000) (ofBits 0x3F800000)).toVector
      = ofBits 0x40000000 ∧
    Vector.Magnitude binary32 (Vector2.ofFloats (ofBits 0x3F800000) (ofBits 0x3F800000)).toVector
      = ofBits 0x3FB504F3 ∧
    binary32.multiplies
        (Vector.Magnitude binary32
          (Vector2.ofFloats (ofBits 0x3F800000) (ofBits 0x3F800000)).toVector)
        (Vector.Magnitude binary32
          (Vector2.ofFloats (ofBits 0x3F800000) (ofBits 0x3F800000)).toVector)
      = ofBits 0x3FFFFFFF ∧
    binary32.eq
      (binary32.multiplies
        (Vector.Magnitude binary32
          (Vector2.ofFloats (ofBits 0x3F800000) (ofBits 0x3F800000)).toVector)
        (Vector.Magnitude binary32
          (Vector2.ofFloats (ofBits 0x3F800000) (ofBits 0x3F800000)).toVector))
      (Vector.SqrMagnitude binary32
        (Vector2.ofFloats (ofBits 0x3F800000) (ofBits 0x3F800000)).toVector) = false ∧
    Vector.SqrMagnitude binary32
        (Vector3.ofFloats (ofBits 0x45800000) (ofBits 0x3F800000) (ofBits 0x3F800000)).toVector
      = ofBits 0x4B800000 ∧
    Vector.SqrMagnitude binary32
        (Vector3.ofFloats (ofBits 0x3F800000) (ofBits 0x3F800000) (ofBits 0x45800000)).toVector
      = ofBits 0x4B800001 := by
  decide

end Binary32Evaluations

/-! ## Statements in `float` arithmetic and in exact arithmetic -/

section FloatClaims

variable {Dimension : Nat}

/-- C8. In `float` arithmetic, for all 3D vectors `a`, `b` and every slot `i`: either
`Cross(a, b)[i]` is NaN, or `Cross(a, b)[i] == -Cross(b, a)[i]` holds.  With exact arithmetic
`Cross(a, b)[i] = -Cross(b, a)[i]` for all `a`, `b` and `i`. -/
theorem Cross_anticomm_float (a b : Vector3 Binary32) (i : Fin 3) :
    (((Vector3.Cross binary32 a b).parameters i).isNaN = true ∨
      binary32.eq ((Vector3.Cross binary32 a b).parameters i)
        (Binary32.neg ((Vector3.Cross binary32 b a).parameters i)) = true) ∧
    (∀ (G : Type) [Field G] [DecidableEq G] (sqrt : G → G) (u w : Vector3 G),
      (Vector3.Cross (exactOps sqrt) u w).parameters i =
        -(Vector3.Cross (exactOps sqrt) w u).parameters i) := by
  refine ⟨?_, fun G _ _ sqrt u w => Cross_anticomm sqrt u w i⟩
  rw [Cross_parameters, Cross_parameters]
  have hswap : binary32.minus
      (binary32.multiplies (b.parameters (Vector3.rot i 1)) (a.parameters (Vector3.rot i 2)))
      (binary32.multiplies (b.parameters (Vector3.rot i 2)) (a.parameters (Vector3.rot i 1))) =
      Binary32.sub
        (Binary32.mul (a.parameters (Vector3.rot i 2)) (b.parameters (Vector3.rot i 1)))
        (Binary32.mul (a.parameters (Vector3.rot i 1)) (b.parameters (Vector3.rot i 2))) := by
    show Binary32.sub (Binary32.mul _ _) (Binary32.mul _ _) = _
    rw [Binary32.mul_comm (b.parameters (Vector3.rot i 1)),
      Binary32.mul_comm (b.parameters (Vector3.rot i 2))]
  rw [hswap]
  show (Binary32.sub _ _).isNaN = true ∨ Binary32.eq (Binary32.sub _ _) _ = true
  rcases Bool.eq_false_or_eq_true
    (Binary32.sub
      (Binary32.mul (a.parameters (Vector3.rot i 1)) (b.parameters (Vector3.rot i 2)))
      (Binary32.mul (a.parameters (Vector3.rot i 2)) (b.parameters (Vector3.rot i 1)))).isNaN
    with h | h
  · exact Or.inl h
  · exact Or.inr (Binary32.eq_sub_neg_sub _ _ h)

/-- C11. In `float` arithmetic, for every dimension and all vectors `a`, `b`:
`SqrDistance(a, b)` is NaN exactly when `SqrDistance(b, a)` is, and otherwise
`SqrDistance(a, b) == SqrDistance(b, a)` holds; likewise `Distance(a, b)` is NaN exactly when
`Distance(b, a)` is, and otherwise `Distance(a, b) == Distance(b, a)` holds.  With exact
arithmetic both pairs are equal. -/
theorem Distance_symm_float (a b : Vector Binary32 Dimension) :
    (Vector.SqrDistance binary32 a b).isNaN = (Vector.SqrDistance binary32 b a).isNaN ∧
    ((Vector.SqrDistance binary32 a b).isNaN = false →
      binary32.eq (Vector.SqrDistance binary32 a b) (Vector.SqrDistance binary32 b a) = true) ∧
    (Vector.Distance binary32 a b).isNaN = (Vector.Distance binary32 b a).isNaN ∧
    ((Vector.Distance binary32 a b).isNaN = false →
      binary32.eq (Vector.Distance binary32 a b) (Vector.Distance binary32 b a) = true) ∧
    (∀ (G : Type) [Field G] [DecidableEq G] (sqrt : G → G) (u w : Vector G Dimension),
      Vector.Distance (exactOps sqrt) u w = Vector.Distance (exactOps sqrt) w u ∧
        Vector.SqrDistance (exactOps sqrt) u w = Vector.SqrDistance (exactOps sqrt) w u) := by
  have hsq := SqrDistance_float_swap a b
  have hd : Vector.Distance binary32 a b = Vector.Distance binary32 b a := by
    have h1 : ∀ u w : Vector Binary32 Dimension, Vector.Distance binary32 u w =
        binary32.sqrt (Vector.SqrDistance binary32 u w) := fun _ _ => rfl
    rw [h1, h1, hsq]
  refine ⟨by rw [hsq], fun h => ?_, by rw [hd], fun h => ?_,
    fun G _ _ sqrt u w => Distance_symm sqrt u w⟩
  · rw [← hsq]
    exact Binary32.eq_self h
  · rw [← hd]
    exact Binary32.eq_self h

/-- C12. In `float` arithmetic, for every dimension and every vector `a` whose components are
all finite (no infinity, no NaN), `SqrDistance(a, a)` is `+0` and `Distance(a, a)` is `+0`.
With exact arithmetic and an exact square root both are `0` for every vector. -/
theorem Distance_self_float (a : Vector Binary32 Dimension) :
    ((∀ i, (a.parameters i).isFinite = true) →
      Vector.SqrDistance binary32 a a = binary32.zero ∧
        Vector.Distance binary32 a a = binary32.zero) ∧
    (∀ (G : Type) [LinearOrderedField G] (sqrt : G → G), ExactSqrt sqrt →
      ∀ u : Vector G Dimension, Vector.Distance (exactOps sqrt) u u = 0 ∧
        Vector.SqrDistance (exactOps sqrt) u u = 0) := by
  refine ⟨fun hfin => ?_, fun G _ sqrt hs u => Distance_self sqrt hs u⟩
  have hsq := SqrDistance_float_self a hfin
  refine ⟨hsq, ?_⟩
  have h1 : Vector.Distance binary32 a a =
      binary32.sqrt (Vector.SqrDistance binary32 a a) := rfl
  rw [h1, hsq]
  decide

theorem Distance_self_float_witness :
    (∀ i, ((Vector2.ofFloats (Binary32.ofBits 0x40400000)
        (Binary32.ofBits 0x40800000)).toVector.parameters i).isFinite = true) ∧
      Vector.Distance binary32
        (Vector2.ofFloats (Binary32.ofBits 0x40400000) (Binary32.ofBits 0x40800000)).toVector
        (Vector2.ofFloats (Binary32.ofBits 0x40400000) (Binary32.ofBits 0x40800000)).toVector
        = binary32.zero ∧
      ExactSqrt Real.sqrt ∧
      Vector.Distance (exactOps Real.sqrt) (Vector2.ofFloats (3 : ℝ) 4).toVector
        (Vector2.ofFloats (3 : ℝ) 4).toVector = 0 :=
  ⟨by decide,
    ((Distance_self_float
      (Vector2.ofFloats (Binary32.ofBits 0x40400000) (Binary32.ofBits 0x40800000)).toVector).1
      (by decide)).2,
    exactSqrt_real,
    ((Distance_self_float
      (Vector2.ofFloats (Binary32.ofBits 0x40400000) (Binary32.ofBits 0x40800000)).toVector).2
      ℝ Real.sqrt exactSqrt_real (Vector2.ofFloats (3 : ℝ) 4).toVector).1⟩

/-- In `float` arithmetic `SqrMagnitude` is a NaN or has a clear sign bit. -/
theorem SqrMagnitude_float_sign (v : Vector Binary32 Dimension) :
    (Vector.SqrMagnitude binary32 v).isNaN = true ∨
      (Vector.SqrMagnitude binary32 v).sign = false := by
  unfold Vector.SqrMagnitude
  apply forLoop_invariant (fun mag : Binary32 => mag.isNaN = true ∨ mag.sign = false)
  · exact Or.inr rfl
  · intro i mag hmag
    show (Binary32.add mag (Binary32.mul (v.parameters i) (v.parameters i))).isNaN = true ∨
      (Binary32.add mag (Binary32.mul (v.parameters i) (v.parameters i))).sign = false
    rcases hmag with hm | hm
    · exact Or.inl (Binary32.add_isNaN (Or.inl hm))
    · rcases Binary32.mul_self_sign (v.parameters i) with ht | ht
      · exact Or.inl (Binary32.add_isNaN (Or.inr ht))
      · rcases Bool.eq_false_or_eq_true mag.isNaN with hn | hn
        · exact Or.inl (Binary32.add_isNaN (Or.inl hn))
        · rcases Bool.eq_false_or_eq_true
            (Binary32.mul (v.parameters i) (v.parameters i)).isNaN with hn2 | hn2
          · exact Or.inl (Binary32.add_isNaN (Or.inr hn2))
          · exact Or.inr (Binary32.add_sign hn hn2 hm ht).2

/-- C15. In `float` arithmetic, for every vector `v`: `SqrMagnitude(v)` is NaN or has a
clear sign bit (it is not negative), `Magnitude(v)` is the `float` square root of
`SqrMagnitude(v)` and is NaN or has a clear sign bit, and the vector `(3, 4)` has `Magnitude`
`5`.  With exact arithmetic and an exact square root, for every vector `u`: `SqrMagnitude(u)`
is the sum of the squares of the components and is not negative; `Magnitude(u)` is the square
root of `SqrMagnitude(u)`, is not negative, and its square is `SqrMagnitude(u)`; and `(3, 4)`
has `Magnitude` `5`. -/
theorem SqrMagnitude_Magnitude_float (v : Vector Binary32 Dimension) :
    ((Vector.SqrMagnitude binary32 v).isNaN = true ∨
      (Vector.SqrMagnitude binary32 v).sign = false) ∧
    Vector.Magnitude binary32 v = Binary32.sqrt (Vector.SqrMagnitude binary32 v) ∧
    ((Vector.Magnitude binary32 v).isNaN = true ∨ (Vector.Magnitude binary32 v).sign = false) ∧
    Vector.Magnitude binary32
      (Vector2.ofFloats (Binary32.ofBits 0x40400000) (Binary32.ofBits 0x40800000)).toVector =
      Binary32.ofBits 0x40A00000 ∧
    (∀ (G : Type) [LinearOrderedField G] (sqrt : G → G), ExactSqrt sqrt →
      ∀ u : Vector G Dimension,
        Vector.SqrMagnitude (exactOps sqrt) u = ∑ i, u.parameters i ^ 2 ∧
        0 ≤ Vector.SqrMagnitude (exactOps sqrt) u ∧
        Vector.Magnitude (exactOps sqrt) u = sqrt (Vector.SqrMagnitude (exactOps sqrt) u) ∧
        0 ≤ Vector.Magnitude (exactOps sqrt) u ∧
        Vector.Magnitude (exactOps sqrt) u ^ 2 = Vector.SqrMagnitude (exactOps sqrt) u ∧
        Vector.Magnitude (exactOps sqrt) (Vector2.ofFloats (3 : G) 4).toVector = 5) := by
  refine ⟨SqrMagnitude_float_sign v, rfl, Binary32.sqrt_sign (SqrMagnitude_float_sign v),
    by decide, fun G _ sqrt hs u => SqrMagnitude_Magnitude_spec sqrt hs u⟩

theorem SqrMagnitude_Magnitude_float_witness :
    ExactSqrt Real.sqrt ∧
      Vector.Magnitude (exactOps Real.sqrt) (Vector2.ofFloats (3 : ℝ) 4).toVector ^ 2 =
        Vector.SqrMagnitude (exactOps Real.sqrt) (Vector2.ofFloats (3 : ℝ) 4).toVector :=
  ⟨exactSqrt_real,
    ((SqrMagnitude_Magnitude_float
      (Vector2.ofFloats (Binary32.ofBits 0x40400000) (Binary32.ofBits 0x40800000)).toVector).2.2.2.2
      ℝ Real.sqrt exactSqrt_real (Vector2.ofFloats (3 : ℝ) 4).toVector).2.2.2.2.1⟩

end FloatClaims

end MultiDimensionalVector
